import Mathlib

set_option maxRecDepth 1000000
set_option maxHeartbeats 4000000

/-!
Verification development for the `bi_pii_tokenizer` repository.

The Go sources are shallowly embedded in Lean:

* Strings are embedded as Lean `String`; all PII values, tokens, keys and
  hex/base32/base36 renderings handled by the repository are ASCII, so Go
  byte-indexing of strings coincides with `Char` indexing and `[]byte(s)`
  is embedded as `s.data.map Char.toNat`.
* SHA-256 and HMAC-SHA256 (`crypto/sha256`, `crypto/hmac`) are implemented
  concretely, bit-for-bit, over `List Nat` bytes with explicit `% 2^32`
  arithmetic.
* AES-GCM (`crypto/aes` + `cipher.NewGCM`) is modelled at the level of an
  authenticated encryption scheme: a ciphertext is a symbolic value
  recording the key, the random nonce and the plaintext (or an arbitrary
  corrupted blob), encryption consumes a fresh nonce, and decryption
  succeeds exactly on an un-corrupted ciphertext produced under the same
  key.  The base64 text/raw-bytes distinction made by the Go code is kept
  as a flag on the symbolic ciphertext.
* The FF1 cipher of `github.com/capitalone/fpe/ff1` is an external library;
  it is kept as an abstract parameter (`FF1Prim`) supplied to the functions
  that call it, mirroring exactly how `ff1EncryptGeneric` wraps it.
* The PostgreSQL store is embedded as a list of rows together with the
  unique indexes declared in `migrations/001_create_pii_tokens.sql`
  (`blind_index`, `fpt`, `encrypted_value` — all global, the table has no
  tenant column); the Redis cache as an association-list state plus a mode
  flag (`ok` / `failing`) so that cache failures can be reasoned about.
-/

deriving instance DecidableEq for Except

namespace PiiTok

/-! ## SHA-256 (`crypto/sha256`), over byte lists, words as `Nat % 2^32` -/

/-- Truncate to a 32-bit word. -/
def w32 (n : Nat) : Nat := n % 4294967296

/-- 32-bit right rotation. -/
def rotr (n x : Nat) : Nat := w32 ((x >>> n) ||| (x <<< (32 - n)))

def bigSigma0 (x : Nat) : Nat := (rotr 2 x) ^^^ (rotr 13 x) ^^^ (rotr 22 x)
def bigSigma1 (x : Nat) : Nat := (rotr 6 x) ^^^ (rotr 11 x) ^^^ (rotr 25 x)
def smallSigma0 (x : Nat) : Nat := (rotr 7 x) ^^^ (rotr 18 x) ^^^ (x >>> 3)
def smallSigma1 (x : Nat) : Nat := (rotr 17 x) ^^^ (rotr 19 x) ^^^ (x >>> 10)
def chF (x y z : Nat) : Nat := (x &&& y) ^^^ ((x ^^^ 4294967295) &&& z)
def majF (x y z : Nat) : Nat := (x &&& y) ^^^ (x &&& z) ^^^ (y &&& z)

def sha256K : List Nat :=
  [1116352408, 1899447441, 3049323471, 3921009573, 961987163, 1508970993,
   2453635748, 2870763221, 3624381080, 310598401, 607225278, 1426881987,
   1925078388, 2162078206, 2614888103, 3248222580, 3835390401, 4022224774,
   264347078, 604807628, 770255983, 1249150122, 1555081692, 1996064986,
   2554220882, 2821834349, 2952996808, 3210313671, 3336571891, 3584528711,
   113926993, 338241895, 666307205, 773529912, 1294757372, 1396182291,
   1695183700, 1986661051, 2177026350, 2456956037, 2730485921, 2820302411,
   3259730800, 3345764771, 3516065817, 3600352804, 4094571909, 275423344,
   430227734, 506948616, 659060556, 883997877, 958139571, 1322822218,
   1537002063, 1747873779, 1955562222, 2024104815, 2227730452, 2361852424,
   2428436474, 2756734187, 3204031479, 3329325298]

def sha256H0 : List Nat :=
  [1779033703, 3144134277, 1013904242, 2773480762,
   1359893119, 2600822924, 528734635, 1541459225]

/-- Big-endian packing of bytes into 32-bit words. -/
def bytesToWordsBE : List Nat → List Nat
  | a :: b :: c :: d :: rest => (((a * 256 + b) * 256 + c) * 256 + d) :: bytesToWordsBE rest
  | _ => []

/-- Big-endian unpacking of one 32-bit word into four bytes. -/
def wordToBytesBE (w : Nat) : List Nat :=
  [w / 16777216 % 256, w / 65536 % 256, w / 256 % 256, w % 256]

/-- Split a byte list into 64-byte blocks (structural recursion on a fuel
bound so the kernel can evaluate it). -/
def chunks64Go : Nat → List Nat → List (List Nat)
  | 0, _ => []
  | _, [] => []
  | fuel + 1, l => l.take 64 :: chunks64Go fuel (l.drop 64)

def chunks64 (l : List Nat) : List (List Nat) := chunks64Go l.length l

/-- Append the next message-schedule word (callers start from the 16 block words). -/
def scheduleStep (w : List Nat) : List Nat :=
  let i := w.length
  let s0 := smallSigma0 (w.getD (i - 15) 0)
  let s1 := smallSigma1 (w.getD (i - 2) 0)
  w ++ [w32 (s1 + w.getD (i - 7) 0 + s0 + w.getD (i - 16) 0)]

/-- Full 64-word message schedule of one block. -/
def sha256Schedule (m : List Nat) : List Nat :=
  (List.range 48).foldl (fun w _ => scheduleStep w) m

structure Hash8 where
  a : Nat
  b : Nat
  c : Nat
  d : Nat
  e : Nat
  f : Nat
  g : Nat
  h : Nat
deriving DecidableEq, Repr

/-- One SHA-256 compression round; `kw` is the pair of round constant and schedule word. -/
def compressRound (st : Hash8) (kw : Nat × Nat) : Hash8 :=
  let t1 := w32 (st.h + bigSigma1 st.e + chF st.e st.f st.g + kw.1 + kw.2)
  let t2 := w32 (bigSigma0 st.a + majF st.a st.b st.c)
  ⟨w32 (t1 + t2), st.a, st.b, st.c, w32 (st.d + t1), st.e, st.f, st.g⟩

/-- Compress one 64-byte block into the running hash state (8 words). -/
def compressBlock (hs : List Nat) (block : List Nat) : List Nat :=
  let m := sha256Schedule (bytesToWordsBE block)
  let st0 : Hash8 :=
    ⟨hs.getD 0 0, hs.getD 1 0, hs.getD 2 0, hs.getD 3 0,
     hs.getD 4 0, hs.getD 5 0, hs.getD 6 0, hs.getD 7 0⟩
  let st := (sha256K.zip m).foldl compressRound st0
  [w32 (hs.getD 0 0 + st.a), w32 (hs.getD 1 0 + st.b), w32 (hs.getD 2 0 + st.c),
   w32 (hs.getD 3 0 + st.d), w32 (hs.getD 4 0 + st.e), w32 (hs.getD 5 0 + st.f),
   w32 (hs.getD 6 0 + st.g), w32 (hs.getD 7 0 + st.h)]

/-- Big-endian rendering of `n` into `count` bytes. -/
def natToBytesBE (n count : Nat) : List Nat :=
  ((List.range count).reverse).map fun i => n / (256 ^ i) % 256

/-- SHA-256 padding: `0x80`, zeros to 56 mod 64, then the 64-bit bit length. -/
def sha256Pad (msg : List Nat) : List Nat :=
  let k := (64 - ((msg.length + 9) % 64)) % 64
  msg ++ (128 :: List.replicate k 0) ++ natToBytesBE (8 * msg.length) 8

/-- SHA-256 of a byte list, as a 32-byte list. -/
def sha256 (msg : List Nat) : List Nat :=
  (((chunks64 (sha256Pad msg)).foldl compressBlock sha256H0).map wordToBytesBE).flatten

/-! ## HMAC-SHA256 (`crypto/hmac`) -/

def hmacSha256 (key msg : List Nat) : List Nat :=
  let k0 := if key.length > 64 then sha256 key else key
  let kp := k0 ++ List.replicate (64 - k0.length) 0
  let ipad := kp.map (fun b => b ^^^ 0x36)
  let opad := kp.map (fun b => b ^^^ 0x5c)
  sha256 (opad ++ sha256 (ipad ++ msg))

/-! ## Byte/string helpers -/

/-- `[]byte(s)` for the ASCII strings handled by the repository. -/
def strBytes (s : String) : List Nat := s.data.map Char.toNat

def hexDigitChar (n : Nat) : Char := "0123456789abcdef".data.getD n '0'

/-- `hex.EncodeToString`. -/
def hexEncode (l : List Nat) : String :=
  String.mk ((l.map fun b => [hexDigitChar (b / 16), hexDigitChar (b % 16)]).flatten)

/-- `common.HMACBlindIndex`: HMAC-SHA256 rendered as lowercase hex. -/
def HMACBlindIndex (hmacKey : List Nat) (value : String) : String :=
  hexEncode (hmacSha256 hmacKey (strBytes value))

/-- `common.ComputeBlindIndex`: the raw HMAC bytes (used by the v2 path). -/
def ComputeBlindIndex (key : List Nat) (value : String) : List Nat :=
  hmacSha256 key (strBytes value)

/-- `string(b)` for ASCII byte lists (inverse of `strBytes`). -/
def strOfBytes (l : List Nat) : String := String.mk (l.map Char.ofNat)

/-- `unicode.IsSpace` on the ASCII range (what `strings.TrimSpace` strips). -/
def isSpaceChar (c : Char) : Bool :=
  c = ' ' ∨ c = '\t' ∨ c = '\n' ∨ c = '\x0b' ∨ c = '\x0c' ∨ c = '\r'

/-- `strings.TrimSpace` (char-list implementation: the core `String.trim`
is positional and does not reduce in the kernel). -/
def trimSpace (s : String) : String :=
  String.mk (((s.data.dropWhile isSpaceChar).reverse.dropWhile isSpaceChar).reverse)

/-- ASCII `unicode.ToUpper` on one character. -/
def charToUpper (c : Char) : Char :=
  if 'a' ≤ c ∧ c ≤ 'z' then Char.ofNat (c.toNat - 32) else c

/-- ASCII `unicode.ToLower` on one character. -/
def charToLower (c : Char) : Char :=
  if 'A' ≤ c ∧ c ≤ 'Z' then Char.ofNat (c.toNat + 32) else c

/-- `strings.ToUpper` for ASCII strings. -/
def toUpperStr (s : String) : String := String.mk (s.data.map charToUpper)

/-- `strings.ToLower` for ASCII strings. -/
def toLowerStr (s : String) : String := String.mk (s.data.map charToLower)

/-- `s[:n]` (kernel-evaluable `String.take`). -/
def strTakeN (s : String) (n : Nat) : String := String.mk (s.data.take n)

/-- Take the substring `s[st : st+len]` (Go byte slicing on ASCII strings). -/
def strSub (s : String) (st len : Nat) : String := String.mk ((s.data.drop st).take len)

/-- Take the substring `s[st:]`. -/
def strDropN (s : String) (st : Nat) : String := String.mk (s.data.drop st)

/-! ## base36 (`big.Int.Text(36)`) and base32 (`encoding/base32`, A-Z2-7, no padding) -/

def base36DigitChar (n : Nat) : Char := "0123456789abcdefghijklmnopqrstuvwxyz".data.getD n '0'

/-- Little-endian base-36 digits of `n` (fuel-structural so the kernel evaluates it). -/
def natToBase36Go : Nat → Nat → List Char
  | 0, _ => []
  | _, 0 => []
  | fuel + 1, n => base36DigitChar (n % 36) :: natToBase36Go fuel (n / 36)

/-- `new(big.Int).SetBytes(b)` followed by `.Text(36)` (lowercase digits; `"0"` for zero). -/
def natToBase36 (n : Nat) : String :=
  if n = 0 then "0" else String.mk (natToBase36Go n n).reverse

/-- `big.Int.SetBytes`: big-endian bytes to a natural number. -/
def natOfBytesBE (l : List Nat) : Nat := l.foldl (fun acc b => acc * 256 + b) 0

/-- The eight bits of a byte, most significant first. -/
def byteBits (b : Nat) : List Nat := (List.range 8).map fun i => (b >>> (7 - i)) &&& 1

def bitsToNat (l : List Nat) : Nat := l.foldl (fun acc b => acc * 2 + b) 0

def base32Alphabet : String := "ABCDEFGHIJKLMNOPQRSTUVWXYZ234567"

/-- RFC 4648 base32 without padding (`base32.StdEncoding.WithPadding(NoPadding)`):
5-bit groups of the big-endian bit stream, the last group zero-padded on the right. -/
def base32NoPadEncode (l : List Nat) : String :=
  let bits := (l.map byteBits).flatten
  let n := (bits.length + 4) / 5
  String.mk ((List.range n).map fun i =>
    let grp := (bits.drop (5 * i)).take 5
    base32Alphabet.data.getD (bitsToNat (grp ++ List.replicate (5 - grp.length) 0)) 'A')

/-! ## AES-GCM (`common.AESGCMEncrypt` / `AESGCMDecrypt`), modelled as an
authenticated-encryption scheme.

`AESGCMEncrypt` in Go returns the base64 text of `nonce ‖ ciphertext` for a
fresh random nonce; `AESGCMDecrypt` decodes the base64 text and opens it,
failing on short input, wrong key or authentication-tag mismatch.  The
symbolic value below records exactly what the byte string determines:
which key and nonce produced it, what the plaintext was, and whether it is
currently in base64-text form (`b64`) or raw-byte form (`raw`); `junk`
stands for any corrupted / non-ciphertext blob. -/

inductive EncVal where
  | b64 (key : List Nat) (nonce : Nat) (plain : String)
  | raw (key : List Nat) (nonce : Nat) (plain : String)
  | junk (tag : String)
deriving DecidableEq, Repr

/-- `common.AESGCMEncrypt` with the random nonce made explicit. -/
def AESGCMEncrypt (aesKey : List Nat) (plaintext : String) (nonce : Nat) : EncVal :=
  .b64 aesKey nonce plaintext

/-- `common.AESGCMDecrypt`: succeeds exactly on base64-form ciphertext sealed
under the same key. -/
def AESGCMDecrypt (aesKey : List Nat) (v : EncVal) : Except String String :=
  match v with
  | .b64 k _ p => if k = aesKey then .ok p else .error "cipher: message authentication failed"
  | .raw _ _ _ => .error "illegal base64 data"
  | .junk _ => .error "cipher: message authentication failed"

/-- `base64.StdEncoding.DecodeString` applied to a ciphertext value. -/
def base64DecodeEnc : EncVal → Except String EncVal
  | .b64 k n p => .ok (.raw k n p)
  | .raw _ _ _ => .error "illegal base64 data"
  | .junk _ => .error "illegal base64 data"

/-- `base64.StdEncoding.EncodeToString` applied to a ciphertext value.
Re-encoding base64 text (or junk) yields bytes that no longer open. -/
def base64EncodeEnc : EncVal → EncVal
  | .raw k n p => .b64 k n p
  | .b64 _ _ _ => .junk "double-encoded"
  | .junk t => .junk ("b64:" ++ t)

/-! ## FF1 (`github.com/capitalone/fpe/ff1`), kept abstract -/

/-- The external FF1 cipher: `NewCipher` + `EncryptWithTweak` combined, as a
parameter `(key, radix, tweak, plaintext string) ↦ ciphertext string`. -/
structure FF1Prim where
  encrypt : List Nat → Nat → List Nat → String → Except String String

/-- `common.alphabetForRadix`. -/
def alphabetForRadix (radix : Nat) (alphaUpper : Bool) : Except String String :=
  if radix < 2 ∨ radix > 36 then .error "unsupported radix"
  else if radix ≤ 10 then .ok (strSub "0123456789" 0 radix)
  else if alphaUpper ∧ radix = 26 then .ok "ABCDEFGHIJKLMNOPQRSTUVWXYZ"
  else .ok (strSub "0123456789abcdefghijklmnopqrstuvwxyz" 0 radix)

/-- `common.defaultAlphabetForRadix`. -/
def defaultAlphabetForRadix (radix : Nat) : String :=
  if radix = 0 ∨ radix > 36 then "" else strSub "0123456789abcdefghijklmnopqrstuvwxyz" 0 radix

/-- `common.stringToIntsWithAlphabet` (Go indexes are nonnegative; `Nat` here). -/
def stringToIntsWithAlphabet (s alphabet : String) : Except String (List Nat) :=
  s.data.mapM fun c =>
    match alphabet.data.findIdx? (· = c) with
    | some i => .ok i
    | none => .error "char not in alphabet"

/-- `common.intsToStringWithAlphabet`. -/
def intsToStringWithAlphabet (a : List Nat) (alphabet : String) : Except String String :=
  (a.mapM fun v =>
    if v ≥ alphabet.length then Except.error "value out of range for radix"
    else Except.ok (alphabet.data.getD v '0')).map String.mk

/-- `common.ff1EncryptGeneric`: wraps the abstract cipher exactly as the Go
adapter does (lowercase working alphabet, int↔string conversions). -/
def ff1EncryptGeneric (prim : FF1Prim) (key : List Nat) (radix : Nat) (tweak : List Nat)
    (plaintext : List Nat) : Except String (List Nat) := do
  let alphabet ← alphabetForRadix radix false
  let plainStr ← intsToStringWithAlphabet plaintext alphabet
  let plainStr := toLowerStr plainStr
  let cipherStr ← prim.encrypt key radix tweak plainStr
  stringToIntsWithAlphabet cipherStr alphabet

/-- `common.alphaToInts` (callers only pass uppercase letters). -/
def alphaToInts (s : String) : List Nat := s.data.map fun c => c.toNat - 65

/-- `common.intsToAlpha`. -/
def intsToAlpha (a : List Nat) : List Char := a.map fun v => Char.ofNat (65 + v)

/-- `common.digitsToInts` (callers only pass digits). -/
def digitsToInts (s : String) : List Nat := s.data.map fun c => c.toNat - 48

/-- `common.intsToDigits`. -/
def intsToDigits (a : List Nat) : List Char := a.map fun v => Char.ofNat (48 + v)

/-- `common.commonHMACBytesToHex`. -/
def commonHMACBytesToHex (key : List Nat) (value : String) : String :=
  hexEncode (hmacSha256 key (strBytes value))

/-! ## Legacy FPT helpers (`common/helpers.go`) -/

/-- The `for len(s) < length` extension loop of
`deterministicBase36FromHexWithCounter`; each pass appends the uppercase
base36 text of `sha256(s + counter)`, which is never empty, so `length`
rounds of fuel always reach the loop exit. -/
def base36ExtendGo (counter length : Nat) : Nat → String → String
  | 0, s => s
  | fuel + 1, s =>
    if s.length < length then
      base36ExtendGo counter length fuel
        (s ++ toUpperStr (natToBase36 (natOfBytesBE (sha256 (strBytes (s ++ Nat.repr counter))))))
    else s

/-- `common.deterministicBase36FromHexWithCounter`: sha256 of `hexstr:counter`
as an uppercase base36 string, extended while shorter than `length`, then
truncated to `length`.  The Go function never returns an error. -/
def deterministicBase36FromHexWithCounter (hexstr : String) (length counter : Nat) :
    Except String String :=
  let src := sha256 (strBytes (hexstr ++ ":" ++ Nat.repr counter))
  let s := toUpperStr (natToBase36 (natOfBytesBE src))
  let s := base36ExtendGo counter length length s
  let s := if s.length > length then strTakeN s length else s
  .ok s

/-- `common.fptPANFromBlind`: sha256 of `blindHex:counter` folded into
5 letters, 4 digits and a final letter. -/
def fptPANFromBlind (blindHex : String) (counter : Nat) : Except String String :=
  let b := sha256 (strBytes (blindHex ++ ":" ++ Nat.repr counter))
  .ok (String.mk
    (((List.range 5).map fun i => Char.ofNat (65 + b.getD i 0 % 26)) ++
     ((List.range 4).map fun i => Char.ofNat (48 + b.getD (5 + i) 0 % 10)) ++
     [Char.ofNat (65 + b.getD 9 0 % 26)]))

/-- `common.fptDigitsFromBlind`: repeated sha256 rounds accumulated until at
least `length` bytes, each byte folded to a digit.  The Go loop appends one
32-byte digest per round, so it runs exactly `⌈length/32⌉` rounds. -/
def fptDigitsFromBlind (blindHex : String) (length counter : Nat) : Except String String :=
  if length = 0 then .error "invalid length for digits fpt"
  else
    let result := ((List.range ((length + 31) / 32)).map fun round =>
      sha256 (strBytes (blindHex ++ ":" ++ Nat.repr counter ++ ":" ++ Nat.repr round))).flatten
    .ok (String.mk ((result.take length).map fun b => Char.ofNat (48 + b % 10)))

/-- `common.FPTFromBlindIndexWithCounter`. -/
def FPTFromBlindIndexWithCounter (blindHex original dataType : String) (counter : Nat) :
    Except String String :=
  if toUpperStr dataType = "PAN" then fptPANFromBlind blindHex counter
  else if toUpperStr dataType = "AADHAR" then fptDigitsFromBlind blindHex original.length counter
  else deterministicBase36FromHexWithCounter blindHex original.length counter

/-- `common.FPTFromBlindIndex` (counter 0). -/
def FPTFromBlindIndex (blindHex original dataType : String) : Except String String :=
  FPTFromBlindIndexWithCounter blindHex original dataType 0

/-! ## Spec registry (`common/pii_spec.go`, `common/preset_specs.go`) -/

structure Segment where
  name : String
  fixedLen : Nat
  alphabet : String
  radix : Nat
  preserve : Bool

structure PiiSpec where
  typeName : String
  segments : List Segment
  preprocess : Option (String → Except String String)
  postprocess : Option (String → Except String String)

def panSpec : PiiSpec :=
  { typeName := "PAN"
    preprocess := some fun s => .ok (toUpperStr (trimSpace s))
    segments :=
      [⟨"pan_letters1", 5, "ABCDEFGHIJKLMNOPQRSTUVWXYZ", 0, false⟩,
       ⟨"pan_digits", 4, "0123456789", 0, false⟩,
       ⟨"pan_letter2", 1, "ABCDEFGHIJKLMNOPQRSTUVWXYZ", 0, false⟩]
    postprocess := none }

def aadharSpec : PiiSpec :=
  { typeName := "AADHAR"
    preprocess := some fun s => .ok (trimSpace s)
    segments := [⟨"aadhar_digits", 12, "0123456789", 0, false⟩]
    postprocess := none }

def mobileSpec : PiiSpec :=
  { typeName := "MOBILE"
    preprocess := some fun s =>
      let s := trimSpace s
      let s := if "+91".data.isPrefixOf s.data then strDropN s 3 else s
      let s := String.mk (s.data.filter (· ≠ ' '))
      if s.length ≠ 10 then .error "invalid mobile length" else .ok s
    segments := [⟨"mobile_digits", 10, "0123456789", 0, false⟩]
    postprocess := none }

def emailSpec : PiiSpec :=
  { typeName := "EMAIL"
    preprocess := some fun s => .ok (trimSpace s)
    segments :=
      [⟨"localpart", 0, "abcdefghijklmnopqrstuvwxyz0123456789._%+-", 0, false⟩,
       ⟨"at", 1, "@", 0, true⟩,
       ⟨"domain", 0, "", 0, true⟩]
    postprocess := none }

def dlSpec : PiiSpec :=
  { typeName := "DL"
    preprocess := some fun s =>
      let s := toUpperStr (trimSpace s)
      let s := String.mk (s.data.filter (· ≠ ' '))
      if s.length = 0 then .error "empty dl" else .ok s
    segments := [⟨"dl_all", 0, "0123456789ABCDEFGHIJKLMNOPQRSTUVWXYZ", 0, false⟩]
    postprocess := none }

/-- `common.GetSpec` over the registry populated by `preset_specs.go`'s
`init()` (the only registrations in the repository). -/
def GetSpec (typeName : String) : Except String PiiSpec :=
  if toUpperStr typeName = "PAN" then .ok panSpec
  else if toUpperStr typeName = "AADHAR" then .ok aadharSpec
  else if toUpperStr typeName = "MOBILE" then .ok mobileSpec
  else if toUpperStr typeName = "EMAIL" then .ok emailSpec
  else if toUpperStr typeName = "DL" then .ok dlSpec
  else .error "pii spec missing"

/-- Join string pieces with `"@"` (kernel-evaluable `strings.Join`). -/
def joinWithAt : List String → String
  | [] => ""
  | [x] => x
  | x :: rest => x ++ "@" ++ joinWithAt rest

/-- `strings.SplitN(s, "@", 2)`. -/
def splitN2 (s : String) : List String :=
  match (s.data.splitOn '@').map (fun l => String.mk l) with
  | [] => [s]
  | [x] => [x]
  | x :: rest => [x, joinWithAt rest]

/-! ## Legacy strategy (`common/current_generator.go`) -/

/-- The generic per-segment loop of `CurrentGenerator.GenerateToken`
(cursor-threaded, as in the Go source). -/
def currentSegLoop (blindHex normalized : String) :
    List Segment → Nat → String → Except String String
  | [], _, out => .ok out
  | seg :: rest, cursor, out =>
    if seg.preserve then
      if seg.fixedLen > 0 then
        if cursor + seg.fixedLen > normalized.length then
          .error ("invalid length for segment " ++ seg.name)
        else
          currentSegLoop blindHex normalized rest (cursor + seg.fixedLen)
            (out ++ strSub normalized cursor seg.fixedLen)
      else
        currentSegLoop blindHex normalized rest normalized.length
          (out ++ strDropN normalized cursor)
    else if seg.alphabet = "0123456789" ∧ seg.fixedLen > 0 then
      if cursor + seg.fixedLen > normalized.length then
        .error ("invalid length for segment " ++ seg.name)
      else
        match fptDigitsFromBlind blindHex (strSub normalized cursor seg.fixedLen).length 0 with
        | .error e => .error e
        | .ok tok =>
          currentSegLoop blindHex normalized rest (cursor + seg.fixedLen) (out ++ tok)
    else
      if seg.fixedLen > 0 then
        if cursor + seg.fixedLen > normalized.length then
          .error ("invalid length for segment " ++ seg.name)
        else
          let part := strSub normalized cursor seg.fixedLen
          match deterministicBase36FromHexWithCounter (blindHex ++ ":" ++ part) part.length 0 with
          | .error e => .error e
          | .ok tok =>
            currentSegLoop blindHex normalized rest (cursor + seg.fixedLen) (out ++ tok)
      else
        let part := strDropN normalized cursor
        match deterministicBase36FromHexWithCounter (blindHex ++ ":" ++ part) part.length 0 with
        | .error e => .error e
        | .ok tok =>
          currentSegLoop blindHex normalized rest normalized.length (out ++ tok)

/-- `CurrentGenerator.GenerateToken` ("current" / legacy strategy).  In the
Go email branch the all-chars-allowed check selects between two calls that
build the identical expression; both are kept for fidelity. -/
def currentGenerateToken (dataType normalized : String) (tweak : List Nat) :
    Except String String :=
  if tweak.length = 0 then .error "current generator requires blindHex in tweak"
  else
    let blindHex := strOfBytes tweak
    match GetSpec (toUpperStr dataType) with
    | .error e => .error e
    | .ok spec =>
      if toUpperStr dataType = "EMAIL" then
        match splitN2 normalized with
        | [localPart, domain] =>
          let specLocal := spec.segments.getD 0 ⟨"", 0, "", 0, false⟩
          let allowed := specLocal.alphabet
          if localPart.data.all (fun c => allowed.data.contains c) then
            match deterministicBase36FromHexWithCounter (blindHex ++ ":" ++ localPart)
                localPart.length 0 with
            | .error e => .error e
            | .ok tokenLocal => .ok (tokenLocal ++ "@" ++ domain)
          else
            match deterministicBase36FromHexWithCounter (blindHex ++ ":" ++ localPart)
                localPart.length 0 with
            | .error e => .error e
            | .ok cand => .ok (cand ++ "@" ++ domain)
        | _ => .error "invalid email format"
      else
        currentSegLoop blindHex normalized spec.segments 0 ""

/-! ## FF1 strategy (`common/ff1_generator.go`) -/

structure FF1Generator where
  key : List Nat
  keyVersion : String
deriving DecidableEq, Repr

/-- `FF1Generator.KeyVersion()` (accessor used by `TokenizeV3`; the method
body is not among the sources, it returns the generator's version field). -/
def FF1Generator.KeyVersion (g : FF1Generator) : String := g.keyVersion

/-- The generic per-segment loop of `FF1Generator.GenerateToken`. -/
def ff1SegLoop (prim : FF1Prim) (g : FF1Generator) (tweak : List Nat) (normalized : String) :
    List Segment → Nat → String → Except String String
  | [], _, out => .ok out
  | seg :: rest, cursor, out =>
    if seg.preserve then
      if seg.fixedLen > 0 then
        if cursor + seg.fixedLen > normalized.length then
          .error ("invalid length for preserve segment " ++ seg.name)
        else
          ff1SegLoop prim g tweak normalized rest (cursor + seg.fixedLen)
            (out ++ strSub normalized cursor seg.fixedLen)
      else
        ff1SegLoop prim g tweak normalized rest normalized.length
          (out ++ strDropN normalized cursor)
    else
      let partRes : Except String (String × Nat) :=
        if seg.fixedLen > 0 then
          if cursor + seg.fixedLen > normalized.length then
            .error ("invalid length for segment " ++ seg.name)
          else .ok (strSub normalized cursor seg.fixedLen, cursor + seg.fixedLen)
        else .ok (strDropN normalized cursor, normalized.length)
      match partRes with
      | .error e => .error e
      | .ok (part, cursor2) =>
        let alphabet := if seg.alphabet = "" ∧ seg.radix > 0
          then defaultAlphabetForRadix seg.radix else seg.alphabet
        if alphabet = "" then .error ("no alphabet for segment " ++ seg.name)
        else
          match stringToIntsWithAlphabet part alphabet with
          | .error _ =>
            match deterministicBase36FromHexWithCounter (commonHMACBytesToHex g.key part)
                part.length 0 with
            | .error e => .error e
            | .ok fb => ff1SegLoop prim g tweak normalized rest cursor2 (out ++ fb)
          | .ok plainInts =>
            match ff1EncryptGeneric prim g.key alphabet.length tweak plainInts with
            | .error e => .error e
            | .ok cipherInts =>
              match intsToStringWithAlphabet cipherInts alphabet with
              | .error e => .error e
              | .ok cipherPart => ff1SegLoop prim g tweak normalized rest cursor2 (out ++ cipherPart)

/-- `FF1Generator.GenerateToken`. -/
def ff1GenerateToken (prim : FF1Prim) (g : FF1Generator) (dataType normalized0 : String)
    (tweak0 : List Nat) : Except String String :=
  let typ := toUpperStr dataType
  match GetSpec typ with
  | .ok spec =>
    let normRes := match spec.preprocess with
      | some pre => pre normalized0
      | none => .ok normalized0
    match normRes with
    | .error e => .error e
    | .ok normalized =>
      let tweak := if tweak0.length = 0
        then strBytes (spec.typeName ++ ":" ++ g.keyVersion) else tweak0
      if typ = "EMAIL" then
        match splitN2 normalized with
        | [localPart, domain] =>
          let localAlpha := (spec.segments.getD 0 ⟨"", 0, "", 0, false⟩).alphabet
          match stringToIntsWithAlphabet localPart localAlpha with
          | .error _ =>
            match deterministicBase36FromHexWithCounter (commonHMACBytesToHex g.key localPart)
                localPart.length 0 with
            | .error e => .error e
            | .ok fallback => .ok (fallback ++ "@" ++ domain)
          | .ok plainInts =>
            match ff1EncryptGeneric prim g.key localAlpha.length tweak plainInts with
            | .error e => .error e
            | .ok cipherInts =>
              match intsToStringWithAlphabet cipherInts localAlpha with
              | .error e => .error e
              | .ok cipherLocal => .ok (cipherLocal ++ "@" ++ domain)
        | _ => .error "invalid email format"
      else
        match ff1SegLoop prim g tweak normalized spec.segments 0 "" with
        | .error e => .error e
        | .ok out =>
          match spec.postprocess with
          | some post => post out
          | none => .ok out
  | .error _ =>
    -- no registered spec: built-in PAN / AADHAR fallbacks
    if typ = "PAN" then
      if normalized0.length ≠ 10 then .error "invalid PAN length"
      else
        let tweak := if tweak0.length = 0 then strBytes ("PAN:" ++ g.keyVersion) else tweak0
        let lettersBlock := strSub normalized0 0 5 ++ strSub normalized0 9 1
        let aPlain := alphaToInts lettersBlock
        let bPlain := digitsToInts (strSub normalized0 5 4)
        match ff1EncryptGeneric prim g.key 26 tweak aPlain with
        | .error e => .error e
        | .ok aCipher =>
          match ff1EncryptGeneric prim g.key 10 tweak bPlain with
          | .error e => .error e
          | .ok bCipher =>
            .ok (String.mk (intsToAlpha (aCipher.take 5) ++ intsToDigits bCipher ++
              intsToAlpha (aCipher.drop 5 |>.take 1)))
    else if typ = "AADHAR" then
      if normalized0.length = 0 then .error "invalid aadhar length"
      else
        let tweak := if tweak0.length = 0 then strBytes ("AADHAR:" ++ g.keyVersion) else tweak0
        match ff1EncryptGeneric prim g.key 10 tweak (digitsToInts normalized0) with
        | .error e => .error e
        | .ok cipherInts => .ok (String.mk (intsToDigits cipherInts))
    else .error ("unsupported data type for ff1: " ++ dataType)

/-! ## Deterministic v2 generator (`common/fpt_deterministic.go`) -/

/-- `common.NormalizePII`. -/
def NormalizePII (value : String) (_piiType : String) : Except String String :=
  .ok (trimSpace (toUpperStr value))

def isUpperChar (c : Char) : Bool := 'A' ≤ c ∧ c ≤ 'Z'
def isDigitChar (c : Char) : Bool := '0' ≤ c ∧ c ≤ '9'

/-- regexp `[A-Z]` filter (`onlyLetters`). -/
def onlyLetters (s : String) : String := String.mk (s.data.filter isUpperChar)

/-- regexp `[0-9]` filter (`onlyDigits`). -/
def onlyDigits (s : String) : String := String.mk (s.data.filter isDigitChar)

/-- `convertToDigits`: every byte to `'0' + b % 10`. -/
def convertToDigits (s : String) : String :=
  String.mk (s.data.map fun c => Char.ofNat (48 + c.toNat % 10))

/-- regexp `[A-Z0-9]` filter (`alphanumeric`). -/
def alphanumeric (s : String) : String :=
  String.mk (s.data.filter fun c => isUpperChar c || isDigitChar c)

/-- `isAlphaNum`. -/
def isAlphaNum (c : Char) : Bool :=
  ('A' ≤ c ∧ c ≤ 'Z') ∨ ('a' ≤ c ∧ c ≤ 'z') ∨ ('0' ≤ c ∧ c ≤ '9')

/-- The index-threaded substitution loop of `fptForEmail`: alphanumeric
characters are replaced by successive characters of `src`, others kept. -/
def substAlnum (src : List Char) : List Char → Nat → List Char × Nat
  | [], i => ([], i)
  | c :: rest, i =>
    if isAlphaNum c then
      let rest2 := substAlnum src rest (i + 1)
      (src.getD i '0' :: rest2.1, rest2.2)
    else
      let rest2 := substAlnum src rest i
      (c :: rest2.1, rest2.2)

/-- `fptForEmail`: splits on every `'@'` (so requires exactly one), then
substitutes the alphanumeric characters of the local part *and of the
domain* from the digest-derived sequence. -/
def fptForEmail (origEmail base : String) : Except String String :=
  match (origEmail.data.splitOn '@').map (fun l => String.mk l) with
  | [localPart, domain] =>
    let src := alphanumeric base
    if src.length < localPart.length + domain.length then
      .error "entropy insufficient for email FPT"
    else
      let (outLocal, i1) := substAlnum src.data localPart.data 0
      let (outDomain, _) := substAlnum src.data domain.data i1
      .ok (String.mk outLocal ++ "@" ++ String.mk outDomain)
  | _ => .error "invalid email format"

/-- `common.FPTDeterministic`.  The `switch` compares `piiType` with the
lowercase literals exactly (no case folding). -/
def FPTDeterministic (blind : List Nat) (normalized piiType : String) :
    Except String String :=
  let digest := hmacSha256 (strBytes piiType) (blind ++ strBytes normalized)
  let base := toUpperStr (base32NoPadEncode digest)
  if piiType = "pan" then
    if normalized.length ≠ 10 then .error "invalid PAN length"
    else
      let letters := onlyLetters base
      if letters.length < 6 then .error "insufficient letter space for PAN"
      else
        let digits := onlyDigits base
        let digits := if digits.length < 4 then convertToDigits base else digits
        .ok (strTakeN letters 5 ++ strTakeN digits 4 ++ strSub letters 5 1)
  else if piiType = "aadhaar" then
    let digs := convertToDigits base
    if digs.length < 12 then .error "insufficient digit entropy for Aadhaar"
    else .ok (strTakeN digs 12)
  else if piiType = "mobile" then
    let digs := convertToDigits base
    if digs.length < 10 then .error "insufficient digit entropy for mobile"
    else
      let first := digs.data.getD 0 '0'
      let first := if first < '6' then Char.ofNat (54 + first.toNat % 4) else first
      .ok (String.mk (first :: ((digs.data.drop 1).take 9)))
  else if piiType = "email" then fptForEmail normalized base
  else
    let out := alphanumeric base
    if out.length < normalized.length then .error "insufficient entropy for generic FPT"
    else .ok (strTakeN out normalized.length)

/-! ## Store (`models/store.go`, `models/store_v3.go`,
`migrations/001_create_pii_tokens.sql`)

One `pii_tokens` table with the unique indexes of the migration:
`uq_pii_tokens_blind_index (blind_index)`, `uq_pii_tokens_fpt (fpt)` and
`uq_pii_tokens_encrypted_value (encrypted_value)` — all three global (the
migration declares no tenant column; the v3 queries reference a
`tenant_id` / `fpe_key_version` column pair, carried here as row fields). -/

structure PiiRecord where
  encryptedValue : EncVal
  blindIndex : String
  fpt : String
  dataType : String
  tenantId : Option String
  fpeKeyVersion : Option String
deriving DecidableEq, Repr

/-- `Store.GetByBlindIndex` (tenant-blind legacy query). -/
def GetByBlindIndex (store : List PiiRecord) (bi : String) : Option PiiRecord :=
  store.find? (fun r => r.blindIndex == bi)

/-- `Store.GetByFPT`. -/
def GetByFPT (store : List PiiRecord) (fpt : String) : Option PiiRecord :=
  store.find? (fun r => r.fpt == fpt)

/-- `Store.InsertToken`: a plain `INSERT` that violates a unique index when
the blind index, token or ciphertext already exists (legacy rows store NULL
tenant and key version). -/
def InsertToken (store : List PiiRecord) (enc : EncVal) (blindIndex fpt dataType : String) :
    Except String (PiiRecord × List PiiRecord) :=
  if store.any (fun r => r.blindIndex == blindIndex || r.fpt == fpt ||
      r.encryptedValue == enc) then
    .error "duplicate key value violates unique constraint"
  else
    let rec0 : PiiRecord := ⟨enc, blindIndex, fpt, dataType, none, none⟩
    .ok (rec0, store ++ [rec0])

/-- The tenant scoping predicate of the v3 queries:
`($1 = '' AND tenant_id IS NULL) OR tenant_id = $1`. -/
def tenantMatch (tenantID : String) (rid : Option String) : Bool :=
  if tenantID = "" then rid == none else rid == some tenantID

/-- `Store.GetByBlindIndexTenant`. -/
def GetByBlindIndexTenant (store : List PiiRecord) (tenantID blind : String) :
    Option PiiRecord :=
  store.find? (fun r => tenantMatch tenantID r.tenantId && r.blindIndex == blind)

/-- `Store.GetByFPTTenant`. -/
def GetByFPTTenant (store : List PiiRecord) (tenantID fpt : String) : Option PiiRecord :=
  store.find? (fun r => tenantMatch tenantID r.tenantId && r.fpt == fpt)

/-- `Store.InsertTokenTenant`: `INSERT … ON CONFLICT (blind_index) DO NOTHING
RETURNING …` — a blind-index conflict inserts nothing and scans no row
(`(none, store)`); a conflict on another unique index is a hard error;
`NULLIF` turns empty tenant / key version into NULL. -/
def InsertTokenTenant (store : List PiiRecord) (enc : EncVal)
    (blindIndex fpt dataType tenantID fpeKeyVersion : String) :
    Except String (Option PiiRecord × List PiiRecord) :=
  if store.any (fun r => r.blindIndex == blindIndex) then .ok (none, store)
  else if store.any (fun r => r.fpt == fpt || r.encryptedValue == enc) then
    .error "duplicate key value violates unique constraint"
  else
    let rec0 : PiiRecord :=
      ⟨enc, blindIndex, fpt, dataType,
       if tenantID = "" then none else some tenantID,
       if fpeKeyVersion = "" then none else some fpeKeyVersion⟩
    .ok (some rec0, store ++ [rec0])

/-! ## Cache (`bi_internal/cache.go`)

An association list per mapping; `ok` mode answers from the state, `failing`
mode makes every get return an error and every set a no-op (covering Redis
transport failures).  A Redis miss is the empty string in Go (`redis.Nil`),
kept here as `none`. -/

structure CacheState where
  blindMap : List ((String × String) × String)
  fptMap : List ((String × String) × EncVal)
deriving DecidableEq, Repr

def emptyCache : CacheState := ⟨[], []⟩

inductive CacheMode where
  | ok
  | failing
deriving DecidableEq, Repr

/-- `Cache.GetByBlindIndex`. -/
def cacheGetByBlind (mode : CacheMode) (cs : CacheState) (dataType blind : String) :
    Except Unit (Option String) :=
  match mode with
  | .ok => .ok ((cs.blindMap.find? (fun e => e.1 == (dataType, blind))).map (·.2))
  | .failing => .error ()

/-- `Cache.SetByBlindIndex` (last write wins; a failing cache drops the write,
and the Go callers discard the returned error either way). -/
def cacheSetByBlind (mode : CacheMode) (cs : CacheState) (dataType blind fpt : String) :
    CacheState :=
  match mode with
  | .ok => { cs with blindMap := ((dataType, blind), fpt) :: cs.blindMap }
  | .failing => cs

/-- `Cache.GetByFPT`. -/
def cacheGetByFPT (mode : CacheMode) (cs : CacheState) (dataType fpt : String) :
    Except Unit (Option EncVal) :=
  match mode with
  | .ok => .ok ((cs.fptMap.find? (fun e => e.1 == (dataType, fpt))).map (·.2))
  | .failing => .error ()

/-- `Cache.SetByFPT`. -/
def cacheSetByFPT (mode : CacheMode) (cs : CacheState) (dataType fpt : String)
    (enc : EncVal) : CacheState :=
  match mode with
  | .ok => { cs with fptMap := ((dataType, fpt), enc) :: cs.fptMap }
  | .failing => cs

/-! ## Server (`bi_internal/server.go`, `tokenize` / `detokenize` cores) -/

/-- The generator strategy stored in `Server.fptGen` (the `FPTGenerator`
interface: `CurrentGenerator` or `FF1Generator`). -/
inductive GenCfg where
  | current : GenCfg
  | ff1 : FF1Generator → GenCfg
deriving Repr

/-- `FPTGenerator.Mode()`. -/
def GenCfg.mode : GenCfg → String
  | .current => "current"
  | .ff1 _ => "ff1"

/-- `FPTGenerator.GenerateToken` dispatch. -/
def GenCfg.generateToken (prim : FF1Prim) : GenCfg → String → String → List Nat →
    Except String String
  | .current => currentGenerateToken
  | .ff1 g => ff1GenerateToken prim g

structure Server where
  aesKey : List Nat
  hmacKey : List Nat
  cache : Option CacheMode
  fptGen : Option GenCfg
  fpeKeyVersion : String

/-- Server-side mutable world: DB rows, cache contents, and the stream of
random nonces consumed by AES-GCM. -/
structure SrvState where
  store : List PiiRecord
  cacheSt : CacheState
  nonce : Nat
deriving DecidableEq, Repr

/-- The `SetByBlindIndex` + `SetByFPT` write-through pair (results discarded
by every Go caller). -/
def writeBackCache (s : Server) (st : SrvState) (dataType blind fpt : String)
    (enc : EncVal) : SrvState :=
  match s.cache with
  | none => st
  | some mode =>
    { st with
      cacheSt :=
        (cacheSetByFPT mode (cacheSetByBlind mode st.cacheSt dataType blind fpt)
          dataType fpt enc) }

/-- The normalization performed by `Tokenize` / `TokenizeV3`: uppercase+trim
for PAN, trim otherwise. -/
def legacyNormalized (dataType value : String) : String :=
  if toUpperStr (trimSpace dataType) = "PAN" then toUpperStr (trimSpace value)
  else trimSpace value

/-- The tenant-qualified FF1 tweak string built by `TokenizeV3`. -/
def v3Tweak (tenantID dataType keyVersion : String) : String :=
  if tenantID ≠ "" then tenantID ++ ":" ++ toUpperStr dataType ++ ":" ++ keyVersion
  else toUpperStr dataType ++ ":" ++ keyVersion

/-- `Server.Tokenize` (`bi_internal/server.go`): normalize, blind-probe the
cache, then the store, then a single generator invocation, encrypt, insert,
and resolve an insert failure by re-reading by token, then by blind. -/
def Tokenize (prim : FF1Prim) (s : Server) (st : SrvState) (dataType value : String) :
    Except String (String × SrvState) :=
  let normalized := legacyNormalized dataType value
  let blind := HMACBlindIndex s.hmacKey normalized
  let cacheHit : Option String :=
    match s.cache with
    | none => none
    | some mode =>
      match cacheGetByBlind mode st.cacheSt dataType blind with
      | .ok (some fpt) => if fpt = "" then none else some fpt
      | _ => none
  match cacheHit with
  | some fpt => .ok (fpt, st)
  | none =>
    match GetByBlindIndex st.store blind with
    | some found =>
      .ok (found.fpt, writeBackCache s st dataType blind found.fpt found.encryptedValue)
    | none =>
      match s.fptGen with
      | none => .error "fpt generator not configured on server"
      | some gen =>
        let genRes :=
          if gen.mode = "current" then
            gen.generateToken prim dataType normalized (strBytes blind)
          else
            gen.generateToken prim dataType normalized
              (strBytes (toUpperStr dataType ++ ":" ++ s.fpeKeyVersion))
        match genRes with
        | .error e => .error e
        | .ok fpt =>
          let encBytes := AESGCMEncrypt s.aesKey normalized st.nonce
          let st := { st with nonce := st.nonce + 1 }
          match InsertToken st.store encBytes blind fpt dataType with
          | .ok (_, store2) =>
            let st := { st with store := store2 }
            .ok (fpt, writeBackCache s st dataType blind fpt encBytes)
          | .error ierr =>
            match GetByFPT st.store fpt with
            | some existing =>
              .ok (existing.fpt,
                writeBackCache s st dataType blind existing.fpt existing.encryptedValue)
            | none =>
              match GetByBlindIndex st.store blind with
              | some eb =>
                .ok (eb.fpt, writeBackCache s st dataType blind eb.fpt eb.encryptedValue)
              | none => .error ierr

/-- The error outcomes of `Server.Detokenize` / `DetokenizeV3`
(`ErrTokenNotFound` vs. a decryption error vs. anything else). -/
inductive DetokErr where
  | tokenNotFound
  | decryptFailed (msg : String)
deriving DecidableEq, Repr

/-- `Server.Detokenize` (`bi_internal/detokenize.go`): cache by token (under
the literal `"PAN"` cache namespace), then store by token; a decryption
failure is returned as-is, never as `ErrTokenNotFound`. -/
def Detokenize (s : Server) (st : SrvState) (fpt : String) :
    Except DetokErr (String × SrvState) :=
  if trimSpace fpt = "" then .error .tokenNotFound
  else
    let cacheHit : Option EncVal :=
      match s.cache with
      | none => none
      | some mode =>
        match cacheGetByFPT mode st.cacheSt "PAN" fpt with
        | .ok (some v) => some v
        | _ => none
    match cacheHit with
    | some encStr =>
      match AESGCMDecrypt s.aesKey encStr with
      | .ok plain => .ok (plain, st)
      | .error e => .error (.decryptFailed e)
    | none =>
      match GetByFPT st.store fpt with
      | none => .error .tokenNotFound
      | some pt =>
        let st := writeBackCache s st pt.dataType pt.blindIndex pt.fpt pt.encryptedValue
        match AESGCMDecrypt s.aesKey pt.encryptedValue with
        | .ok plain => .ok (plain, st)
        | .error e => .error (.decryptFailed e)

/-- `decryptEncryptedValueBytes` (`bi_internal/detokenize_v3.go`): try the
stored bytes directly, then base64-re-encoded. -/
def decryptEncryptedValueBytes (s : Server) (encBytes : EncVal) : Except String String :=
  match AESGCMDecrypt s.aesKey encBytes with
  | .ok plain => .ok plain
  | .error e1 =>
    match AESGCMDecrypt s.aesKey (base64EncodeEnc encBytes) with
    | .ok plain2 => .ok plain2
    | .error e2 => .error ("decrypt failed: " ++ e1 ++ " / " ++ e2)

/-- `Server.DetokenizeV3`: tenant-scoped read by token, an optional single
global-scope fallback (`V3_ALLOW_GLOBAL_FALLBACK != "false"`), `not found`
only when both reads miss. -/
def DetokenizeV3 (s : Server) (st : SrvState) (allowGlobalFallback : Bool)
    (tenantID fpt : String) : Except DetokErr String :=
  match GetByFPTTenant st.store tenantID fpt with
  | some row =>
    match decryptEncryptedValueBytes s row.encryptedValue with
    | .ok p => .ok p
    | .error e => .error (.decryptFailed e)
  | none =>
    if allowGlobalFallback then
      match GetByFPTTenant st.store "" fpt with
      | some row =>
        match decryptEncryptedValueBytes s row.encryptedValue with
        | .ok p => .ok p
        | .error e => .error (.decryptFailed e)
      | none => .error .tokenNotFound
    else .error .tokenNotFound

/-- `Server.TokenizeV3` (`tokenize_v3` core): tenant-scoped cache and store
probes, FF1 generation with a tenant-qualified tweak, tenant insert with
`ON CONFLICT DO NOTHING`, and the two conflict-resolution read chains
(`envFpe` stands for the `FPE_KEY_BASE64` environment fallback generator). -/
def TokenizeV3 (prim : FF1Prim) (s : Server) (envFpe : Option FF1Generator)
    (st : SrvState) (tenantID dataType value : String) :
    Except String (String × SrvState) :=
  let normalized := legacyNormalized dataType value
  let blindHex := HMACBlindIndex s.hmacKey normalized
  let cacheScope := tenantID ++ ":" ++ toUpperStr dataType
  let cacheHit : Option String :=
    match s.cache with
    | none => none
    | some mode =>
      match cacheGetByBlind mode st.cacheSt cacheScope blindHex with
      | .ok (some fpt) => if fpt = "" then none else some fpt
      | _ => none
  match cacheHit with
  | some fpt => .ok (fpt, st)
  | none =>
    match GetByBlindIndexTenant st.store tenantID blindHex with
    | some found =>
      .ok (found.fpt, writeBackCache s st cacheScope blindHex found.fpt found.encryptedValue)
    | none =>
      let gen : Option FF1Generator :=
        match s.fptGen with
        | some (.ff1 g) => some g
        | _ => envFpe
      match gen with
      | none => .error "FPE_KEY_BASE64 is required (env)"
      | some g =>
        let keyVersion := g.KeyVersion
        let tweakStr := v3Tweak tenantID dataType keyVersion
        match ff1GenerateToken prim g dataType normalized (strBytes tweakStr) with
        | .error e => .error ("ff1 generate error: " ++ e)
        | .ok fpt =>
          let encB64 := AESGCMEncrypt s.aesKey normalized st.nonce
          let st := { st with nonce := st.nonce + 1 }
          match base64DecodeEnc encB64 with
          | .error e => .error ("invalid ciphertext base64: " ++ e)
          | .ok encBytes =>
            match InsertTokenTenant st.store encBytes blindHex fpt dataType tenantID
                keyVersion with
            | .error ierr =>
              -- hard insert error: re-read by (tenant, token), (tenant, blind), global blind
              match GetByFPTTenant st.store tenantID fpt with
              | some existing =>
                .ok (existing.fpt, writeBackCache s st cacheScope blindHex existing.fpt
                  existing.encryptedValue)
              | none =>
                match GetByBlindIndexTenant st.store tenantID blindHex with
                | some e2 =>
                  .ok (e2.fpt, writeBackCache s st cacheScope blindHex e2.fpt e2.encryptedValue)
                | none =>
                  match GetByBlindIndexTenant st.store "" blindHex with
                  | some e3 =>
                    .ok (e3.fpt,
                      writeBackCache s st cacheScope blindHex e3.fpt e3.encryptedValue)
                  | none => .error ("insert failed: " ++ ierr)
            | .ok (none, _) =>
              -- nothing inserted (ON CONFLICT): re-read by (tenant, blind), then global blind
              match GetByBlindIndexTenant st.store tenantID blindHex with
              | some e1 =>
                .ok (e1.fpt, writeBackCache s st cacheScope blindHex e1.fpt e1.encryptedValue)
              | none =>
                match GetByBlindIndexTenant st.store "" blindHex with
                | some e2 =>
                  .ok (e2.fpt, writeBackCache s st cacheScope blindHex e2.fpt e2.encryptedValue)
                | none => .error "insert conflict: token exists but select returned nothing"
            | .ok (some created, store2) =>
              let st := { st with store := store2 }
              .ok (created.fpt,
                writeBackCache s st cacheScope blindHex created.fpt created.encryptedValue)

/-- `HandleTokenizeV2` core (`bi_internal/tokenize_v2.go`), after JSON
decoding: uppercase/trim the type, normalize, deterministic FPT, read by
token, insert when absent. -/
def handleTokenizeV2Core (s : Server) (st : SrvState) (piiType0 piiValue0 : String) :
    Except String (String × SrvState) :=
  let piiType := toUpperStr (trimSpace piiType0)
  let piiValue := trimSpace piiValue0
  if piiType = "" ∨ piiValue = "" then .error "pii_type and pii_value are required"
  else
    match NormalizePII piiValue piiType with
    | .error e => .error e
    | .ok normalized =>
      let blindBytes := ComputeBlindIndex s.hmacKey normalized
      let blindHex := hexEncode blindBytes
      match FPTDeterministic blindBytes normalized piiType with
      | .error e => .error e
      | .ok fpt =>
        match GetByFPT st.store fpt with
        | some existing =>
          if existing.blindIndex = blindHex then .ok (fpt, st)
          else .error "unexpected token conflict"
        | none =>
          let encBytes := AESGCMEncrypt s.aesKey normalized st.nonce
          let st := { st with nonce := st.nonce + 1 }
          match InsertToken st.store encBytes blindHex fpt piiType with
          | .error e => .error ("insert failed: " ++ e)
          | .ok (_, store2) => .ok (fpt, { st with store := store2 })

/-- `isValidPAN` (`bi_internal/tokenize.go` handler validation):
uppercase/trim then `[A-Z]{5}[0-9]{4}[A-Z]` over exactly 10 characters. -/
def panShape (s : String) : Bool :=
  s.length == 10 && (s.data.take 5).all isUpperChar &&
    ((s.data.drop 5).take 4).all isDigitChar && (s.data.drop 9).all isUpperChar

def isValidPAN (pan : String) : Bool := panShape (toUpperStr (trimSpace pan))

/-! ## Derived notions used to state the claims -/

/-- Number of store rows carrying a given blind index. -/
def countBlind (store : List PiiRecord) (blind : String) : Nat :=
  store.countP (fun r => r.blindIndex == blind)

/-- The three-step resolution chain the specification prescribes after a
failed/raced insert: by `(tenant, token)`, then `(tenant, blind)`, then the
global scope by blind. -/
def resolveChain3 (store : List PiiRecord) (tenantID fpt blind : String) : Option String :=
  match GetByFPTTenant store tenantID fpt with
  | some r => some r.fpt
  | none =>
    match GetByBlindIndexTenant store tenantID blind with
    | some r => some r.fpt
    | none =>
      match GetByBlindIndexTenant store "" blind with
      | some r => some r.fpt
      | none => none

/-- The two-step chain the code actually runs on the "nothing inserted"
outcome: by `(tenant, blind)`, then the global scope by blind. -/
def resolveChain2 (store : List PiiRecord) (tenantID blind : String) : Option String :=
  match GetByBlindIndexTenant store tenantID blind with
  | some r => some r.fpt
  | none =>
    match GetByBlindIndexTenant store "" blind with
    | some r => some r.fpt
    | none => none

/-! ## Concrete fixtures used by the claim theorems -/

/-- A concrete instantiation of the abstract external FF1 cipher: the
identity permutation on each alphabet/length domain (used only to run the
model on concrete inputs; the symbolic theorems quantify over all ciphers). -/
def idPrim : FF1Prim := ⟨fun _ _ _ s => .ok s⟩

def testAesKey : List Nat := strBytes "A"
def testHmacKey : List Nat := strBytes "H"

/-- A server running the legacy ("current") strategy, without cache. -/
def srvCurrent : Server := ⟨testAesKey, testHmacKey, none, some .current, ""⟩

/-- A server running the FF1 strategy, without cache. -/
def srvFF1 : Server := ⟨testAesKey, testHmacKey, none, some (.ff1 ⟨strBytes "K", "v1"⟩), "v1"⟩

def emptyState : SrvState := ⟨[], emptyCache, 0⟩

/-- Hex blind index of `"ABCDE1234F"` under `testHmacKey`. -/
def blindAbcde : String :=
  "4276f44dc17f1aec75da17dc8af3e38796770e97fc11b32e6b52f06705c93b92"

/-- C1: first tenant-scoped tokenize call of `"ABCDE1234F"` under tenant
`"t1"`, from an empty store. -/
def c1FirstCall : Except String (String × SrvState) :=
  TokenizeV3 idPrim srvFF1 none emptyState "t1" "PAN" "ABCDE1234F"

def c1StoreAfterFirst : List PiiRecord :=
  match c1FirstCall with
  | .ok (_, st1) => st1.store
  | .error _ => []

/-- C1: the same value tokenized under the distinct tenant `"t2"`, in the
state produced by the first call. -/
def c1SecondCall : Except String (String × SrvState) :=
  match c1FirstCall with
  | .ok (_, st1) => TokenizeV3 idPrim srvFF1 none st1 "t2" "PAN" "ABCDE1234F"
  | .error e => .error e

/-- C2: a store row that already holds the legacy candidate token of
`"ABCDE1234F"` (counter 0) under a *different* blind index. -/
def recC2 : PiiRecord := ⟨.junk "other-pii", "otherblind", "23JC968121", "PAN", none, none⟩

def stC2 : SrvState := ⟨[recC2], emptyCache, 0⟩

/-- C6: a row owned by tenant `"t1"` holding the very token the generator
will produce, under an unrelated blind index. -/
def recC6Token : PiiRecord :=
  ⟨.junk "e1", "otherblind", "ABCDE1234F", "PAN", some "t1", some "v1"⟩

/-- C6: a row of another tenant occupying the value's blind index, which
makes the tenant-scoped insert report "nothing inserted". -/
def recC6Blind : PiiRecord :=
  ⟨.junk "e2", blindAbcde, "OTHERTOK99", "PAN", some "t2", some "v1"⟩

def stC6 : SrvState := ⟨[recC6Token, recC6Blind], emptyCache, 0⟩

/-- C7: a tenant-scoped row whose stored ciphertext is corrupted. -/
def recC7 : PiiRecord := ⟨.junk "corrupt", "bC7", "TOKC7", "PAN", some "t", some "v1"⟩

def stC7 : SrvState := ⟨[recC7], emptyCache, 0⟩

/-- The state produced by tokenizing `"ABCDE1234F"` as PAN on `srvCurrent`
from the empty state (used by the C3/C5 witnesses). -/
def stC5After : SrvState :=
  ⟨[⟨.b64 testAesKey 0 "ABCDE1234F", blindAbcde, "23JC968121", "PAN", none, none⟩],
    emptyCache, 1⟩

/-!
# Claim theorems
-/

/-- C1: tokenizing the same raw value under two distinct tenants is claimed
to persist two distinct tenant-scoped records, both calls returning a token.
On the code this fails: `uq_pii_tokens_blind_index` is global (the migration
has no tenant column at all), so the second tenant's `ON CONFLICT
(blind_index) DO NOTHING` insert inserts nothing, its tenant-scoped and
global re-reads both miss the first tenant's row, and the call returns an
error; only one record exists.  This theorem evaluates the code at the
failing input. -/
theorem claim_C1_second_tenant_fails :
    c1FirstCall.map Prod.fst = .ok "ABCDE1234F" ∧
    c1SecondCall = .error "insert conflict: token exists but select returned nothing" ∧
    c1StoreAfterFirst.length = 1 ∧
    c1StoreAfterFirst.map PiiRecord.tenantId = [some "t1"] := by
  decide

/-- C2: the legacy tokenize path is claimed to iterate a bounded counter
(≈5000 attempts), skipping candidates stored under a different blind index.
The active `Tokenize` performs exactly one generator invocation (counter 0)
and, when the insert collides, returns the token of whatever row already
holds the candidate — here a row with a *different* blind index — instead
of advancing the counter (the distinct counter-1 candidate is shown).  This
theorem evaluates the code at the failing input. -/
theorem claim_C2_no_counter_iteration :
    (Tokenize idPrim srvCurrent stC2 "PAN" "ABCDE1234F").map Prod.fst = .ok "23JC968121" ∧
    recC2.fpt = "23JC968121" ∧
    recC2.blindIndex ≠ HMACBlindIndex testHmacKey "ABCDE1234F" ∧
    FPTFromBlindIndexWithCounter (HMACBlindIndex testHmacKey "ABCDE1234F")
      "ABCDE1234F" "PAN" 1 = .ok "SEHRF4416U" ∧
    ("SEHRF4416U" : String) ≠ "23JC968121" := by
  decide

/-- C4: the legacy strategy's token for a normalized 10-character
5-letter/4-digit/1-letter value is claimed to match `[A-Z]{5}[0-9]{4}[A-Z]`.
The active `Tokenize` in `"current"` mode calls
`CurrentGenerator.GenerateToken`, whose segment loop sends the two letter
segments (alphabet `A-Z`, not `0123456789`) to the
`deterministicBase36FromHexWithCounter` fallback — an uppercase base36
digest string, which contains digits.  For the well-formed input
`"ABCDE1234F"` (which itself satisfies the shape) the generated token is
`"23JC968121"`: its five leading characters are not all letters, it fails
the `[A-Z]{5}[0-9]{4}[A-Z]` shape and the repository's own `isValidPAN`,
while the repository's dedicated PAN helper `fptPANFromBlind` (reached via
`FPTFromBlindIndexWithCounter`, counter 0, on the same blind index) does
produce a shape-compliant token.  This theorem evaluates the code at the
failing input. -/
theorem claim_C4_pan_letter_positions_get_digits :
    (Tokenize idPrim srvCurrent emptyState "PAN" "ABCDE1234F").map Prod.fst =
      .ok "23JC968121" ∧
    currentGenerateToken "PAN" "ABCDE1234F" (strBytes blindAbcde) = .ok "23JC968121" ∧
    blindAbcde = HMACBlindIndex testHmacKey "ABCDE1234F" ∧
    panShape "ABCDE1234F" = true ∧
    (("23JC968121" : String).data.take 5).all isUpperChar = false ∧
    panShape "23JC968121" = false ∧
    isValidPAN "23JC968121" = false ∧
    (FPTFromBlindIndexWithCounter blindAbcde "ABCDE1234F" "PAN" 0).map panShape =
      .ok true := by
  decide

/-! ### Supporting lemmas -/

theorem compressBlock_length (hs block : List Nat) : (compressBlock hs block).length = 8 := rfl

theorem foldl_compressBlock_length (l : List (List Nat)) (hs : List Nat) (h : hs.length = 8) :
    (l.foldl compressBlock hs).length = 8 := by
  induction l generalizing hs with
  | nil => simpa using h
  | cons b rest ih => exact ih _ (compressBlock_length hs b)

theorem flatten_map_const_length {α : Type} (f : α → List Nat) (k : Nat)
    (hf : ∀ x, (f x).length = k) (l : List α) : ((l.map f).flatten).length = k * l.length := by
  induction l with
  | nil => simp
  | cons a rest ih => simp [ih, hf a, Nat.mul_succ, Nat.add_comm]

theorem mk_length (L : List Char) : (String.mk L).length = L.length := rfl

theorem sha256_length (msg : List Nat) : (sha256 msg).length = 32 := by
  unfold sha256
  rw [flatten_map_const_length wordToBytesBE 4 (fun _ => rfl),
    foldl_compressBlock_length (chunks64 (sha256Pad msg)) sha256H0 (by decide)]

theorem hmacSha256_length (key msg : List Nat) : (hmacSha256 key msg).length = 32 := by
  unfold hmacSha256
  exact sha256_length _

theorem base32_length (l : List Nat) :
    (base32NoPadEncode l).length = (8 * l.length + 4) / 5 := by
  have hb : ((l.map byteBits).flatten).length = 8 * l.length :=
    flatten_map_const_length byteBits 8 (fun b => by simp [byteBits]) l
  unfold base32NoPadEncode
  simp only [mk_length, List.length_map, List.length_range]
  rw [hb]

theorem getD_mem {α : Type} (L : List α) (idx : Nat) (d : α) (hd : d ∈ L) :
    L.getD idx d ∈ L := by
  by_cases h : idx < L.length
  · rw [List.getD_eq_getElem L d h]
    exact List.getElem_mem h
  · rw [List.getD_eq_default L d (Nat.le_of_not_lt h)]
    exact hd

theorem base32_chars (l : List Nat) :
    ∀ c ∈ (base32NoPadEncode l).data, c ∈ base32Alphabet.data := by
  intro c hc
  unfold base32NoPadEncode at hc
  simp only [List.mem_map] at hc
  obtain ⟨i, _, hi⟩ := hc
  rw [← hi]
  exact getD_mem _ _ _ (by decide)

theorem base32Alphabet_facts :
    ∀ c ∈ base32Alphabet.data, charToUpper c = c ∧ (isUpperChar c || isDigitChar c) = true := by
  decide

theorem toUpperStr_id_of_upper (s : String) (h : ∀ c ∈ s.data, charToUpper c = c) :
    toUpperStr s = s := by
  cases s with
  | mk data =>
    unfold toUpperStr
    simp only [List.map_congr_left h]
    simp

theorem alphanumeric_id (s : String) (h : ∀ c ∈ s.data, (isUpperChar c || isDigitChar c) = true) :
    alphanumeric s = s := by
  cases s with
  | mk data =>
    unfold alphanumeric
    rw [List.filter_eq_self.mpr h]

theorem substAlnum_length (src : List Char) (l : List Char) (i : Nat) :
    (substAlnum src l i).1.length = l.length := by
  induction l generalizing i with
  | nil => simp [substAlnum]
  | cons c rest ih =>
    by_cases h : isAlphaNum c
    · simp [substAlnum, h, ih]
    · simp [substAlnum, h, ih]

theorem substAlnum_getD (src : List Char) (l : List Char) (i j : Nat)
    (h : isAlphaNum (l.getD j ' ') = false) :
    (substAlnum src l i).1.getD j ' ' = l.getD j ' ' := by
  induction l generalizing i j with
  | nil => simp [substAlnum]
  | cons c rest ih =>
    cases j with
    | zero =>
      rw [List.getD_cons_zero] at h
      simp [substAlnum, h]
    | succ j2 =>
      rw [List.getD_cons_succ] at h
      by_cases hc : isAlphaNum c
      · simp only [substAlnum, hc, if_true]
        rw [List.getD_cons_succ, List.getD_cons_succ]
        exact ih _ _ h
      · simp only [substAlnum, hc, if_false, Bool.false_eq_true, ite_false]
        rw [List.getD_cons_succ, List.getD_cons_succ]
        exact ih _ _ h

theorem det36_isOk (hexstr : String) (length counter : Nat) :
    ∃ s, deterministicBase36FromHexWithCounter hexstr length counter = .ok s := ⟨_, rfl⟩

theorem fptForEmail_structure (origEmail base : String) (lp domain : List Char) (t : String)
    (hsplit : origEmail.data.splitOn '@' = [lp, domain])
    (ht : fptForEmail origEmail base = .ok t) :
    ∃ L D : String, t = L ++ "@" ++ D ∧ D.length = domain.length ∧
      L.length = lp.length ∧
      (∀ j, isAlphaNum (domain.getD j ' ') = false →
        D.data.getD j ' ' = domain.getD j ' ') := by
  unfold fptForEmail at ht
  rw [hsplit] at ht
  simp only [List.map] at ht
  by_cases hlen : (alphanumeric base).length < (String.mk lp).length + (String.mk domain).length
  · rw [if_pos hlen] at ht
    exact absurd ht (by simp)
  · rw [if_neg hlen] at ht
    refine ⟨String.mk (substAlnum (alphanumeric base).data lp 0).1,
      String.mk (substAlnum (alphanumeric base).data domain
        (substAlnum (alphanumeric base).data lp 0).2).1, ?_, ?_, ?_, ?_⟩
    · simpa using ht.symm
    · rw [mk_length, substAlnum_length]
    · rw [mk_length, substAlnum_length]
    · intro j hj
      exact substAlnum_getD _ _ _ _ hj

theorem currentGenerateToken_email_domain (normalized : String) (tweak : List Nat)
    (lp domain : String) (hk : tweak ≠ [])
    (hsplit : splitN2 normalized = [lp, domain]) :
    ∃ X, currentGenerateToken "EMAIL" normalized tweak = .ok (X ++ "@" ++ domain) := by
  unfold currentGenerateToken
  rw [if_neg (by simpa using hk)]
  have hup : toUpperStr "EMAIL" = "EMAIL" := rfl
  have hspec : GetSpec (toUpperStr "EMAIL") = .ok emailSpec := rfl
  rw [hspec, hup, hsplit]
  simp only [if_pos rfl]
  by_cases hall : lp.data.all (fun c => (emailSpec.segments.getD 0
      ⟨"", 0, "", 0, false⟩).alphabet.data.contains c)
  · obtain ⟨s, hs⟩ := det36_isOk (strOfBytes tweak ++ ":" ++ lp) lp.length 0
    refine ⟨s, ?_⟩
    simp [hall, hs]
  · obtain ⟨s, hs⟩ := det36_isOk (strOfBytes tweak ++ ":" ++ lp) lp.length 0
    refine ⟨s, ?_⟩
    simp [hall, hs]

theorem ff1GenerateToken_email_domain (prim : FF1Prim) (g : FF1Generator)
    (normalized : String) (tweak : List Nat) (lp domain t : String)
    (hsplit : splitN2 (trimSpace normalized) = [lp, domain])
    (ht : ff1GenerateToken prim g "EMAIL" normalized tweak = .ok t) :
    ∃ X, t = X ++ "@" ++ domain := by
  have hup : toUpperStr "EMAIL" = "EMAIL" := rfl
  have hspec : GetSpec "EMAIL" = .ok emailSpec := rfl
  simp only [ff1GenerateToken, hup, hspec, emailSpec] at ht
  rw [hsplit] at ht
  simp only [if_true, List.getD_cons_zero] at ht
  cases hlo : stringToIntsWithAlphabet lp "abcdefghijklmnopqrstuvwxyz0123456789._%+-" with
  | error e =>
    rw [hlo] at ht
    simp only [deterministicBase36FromHexWithCounter] at ht
    exact ⟨_, by simpa using ht.symm⟩
  | ok plainInts =>
    rw [hlo] at ht
    simp only [] at ht
    cases hff : ff1EncryptGeneric prim g.key
        ("abcdefghijklmnopqrstuvwxyz0123456789._%+-" : String).length
        (if tweak.length = 0 then strBytes ("EMAIL" ++ ":" ++ g.keyVersion) else tweak)
        plainInts with
    | error e =>
      rw [hff] at ht
      exact absurd ht (by simp)
    | ok cipherInts =>
      rw [hff] at ht
      simp only [] at ht
      cases hcs : intsToStringWithAlphabet cipherInts
          "abcdefghijklmnopqrstuvwxyz0123456789._%+-" with
      | error e =>
        rw [hcs] at ht
        exact absurd ht (by simp)
      | ok cipherLocal =>
        rw [hcs] at ht
        exact ⟨cipherLocal, by simpa using ht.symm⟩

theorem find?_append_last {α : Type} (l : List α) (a : α) (p : α → Bool)
    (h : l.find? p = none) (hp : p a = true) : (l ++ [a]).find? p = some a := by
  induction l with
  | nil => simp [List.find?_cons_of_pos _ hp]
  | cons x xs ih =>
    have hx : ¬ p x := by
      have := List.find?_eq_none.mp h x (by simp)
      simpa using this
    rw [List.find?_cons_of_neg _ hx] at h
    show ((x :: (xs ++ [a])).find? p) = some a
    rw [List.find?_cons_of_neg _ hx]
    exact ih h

/-- `Tokenize` on a cache-less server returns immediately from the store when
the blind-probe hits. -/
theorem tokenize_hit (prim : FF1Prim) (aesKey hmacKey : List Nat) (gen : GenCfg)
    (kv : String) (st : SrvState) (dataType value : String) (r : PiiRecord)
    (hfound : GetByBlindIndex st.store
      (HMACBlindIndex hmacKey (legacyNormalized dataType value)) = some r) :
    Tokenize prim ⟨aesKey, hmacKey, none, some gen, kv⟩ st dataType value =
      .ok (r.fpt, st) := by
  simp only [Tokenize, writeBackCache, hfound]

/-- First-ever tokenization of a value on a cache-less server: when no store
row carries the value's blind index and no row already holds the returned
token, a successful `Tokenize` must have inserted exactly the fresh record,
sealed under the server's AES key and the current nonce. -/
theorem tokenize_fresh (prim : FF1Prim) (aesKey hmacKey : List Nat) (gen : GenCfg)
    (kv : String) (st : SrvState) (dataType value t : String) (st1 : SrvState)
    (hb : GetByBlindIndex st.store
      (HMACBlindIndex hmacKey (legacyNormalized dataType value)) = none)
    (hno : ∀ r ∈ st.store, r.fpt = t →
      r.blindIndex = HMACBlindIndex hmacKey (legacyNormalized dataType value))
    (h1 : Tokenize prim ⟨aesKey, hmacKey, none, some gen, kv⟩ st dataType value =
      .ok (t, st1)) :
    st1 = ⟨st.store ++ [⟨.b64 aesKey st.nonce (legacyNormalized dataType value),
        HMACBlindIndex hmacKey (legacyNormalized dataType value), t, dataType, none, none⟩],
      st.cacheSt, st.nonce + 1⟩ := by
  simp only [Tokenize, writeBackCache, AESGCMEncrypt, hb] at h1
  split at h1
  next e heq => exact absurd h1 (by simp)
  next fpt heq =>
    simp only [InsertToken] at h1
    by_cases hdup : st.store.any (fun r =>
        r.blindIndex == HMACBlindIndex hmacKey (legacyNormalized dataType value) ||
        r.fpt == fpt ||
        r.encryptedValue == EncVal.b64 aesKey st.nonce (legacyNormalized dataType value))
    · rw [if_pos hdup] at h1
      simp only [] at h1
      cases hf : GetByFPT st.store fpt with
      | some existing =>
        rw [hf] at h1
        simp only [Except.ok.injEq, Prod.mk.injEq] at h1
        have hmem := List.mem_of_find?_eq_some hf
        have hpf : existing.fpt = fpt := by
          have := List.find?_some hf
          simpa using this
        have hbl := hno existing hmem h1.1
        have hnone := List.find?_eq_none.mp hb existing hmem
        simp [hbl] at hnone
      | none =>
        rw [hf] at h1
        simp only [] at h1
        exact absurd h1 (by simp)
    · rw [if_neg hdup] at h1
      simp only [Except.ok.injEq, Prod.mk.injEq] at h1
      obtain ⟨hfpt, hst⟩ := h1
      rw [← hst, ← hfpt]

theorem countBlind_eq_one (store : List PiiRecord) (blind : String) (r : PiiRecord)
    (hfind : GetByBlindIndex store blind = some r)
    (hpw : List.Pairwise (fun a b : PiiRecord => a.blindIndex ≠ b.blindIndex) store) :
    countBlind store blind = 1 := by
  induction store with
  | nil => simp [GetByBlindIndex, List.find?] at hfind
  | cons x xs ih =>
    rw [List.pairwise_cons] at hpw
    by_cases hx : x.blindIndex == blind
    · have hxeq : x.blindIndex = blind := by simpa using hx
      unfold countBlind
      rw [List.countP_cons]
      have hrest : xs.countP (fun rr => rr.blindIndex == blind) = 0 := by
        refine List.countP_eq_zero.mpr ?_
        intro y hy
        have h2 := hpw.1 y hy
        rw [hxeq] at h2
        intro hcon
        have h3 : y.blindIndex = blind := by simpa using hcon
        exact h2 h3.symm
      simp [hx, hrest]
    · unfold GetByBlindIndex at hfind
      rw [List.find?_cons_of_neg _ (by simpa using hx)] at hfind
      have := ih hfind hpw.2
      unfold countBlind at this ⊢
      rw [List.countP_cons]
      simp [hx, this]

theorem countBlind_eq_one_mem (store : List PiiRecord) (blind : String) (r : PiiRecord)
    (hmem : r ∈ store) (hrb : r.blindIndex = blind)
    (hpw : List.Pairwise (fun a b : PiiRecord => a.blindIndex ≠ b.blindIndex) store) :
    countBlind store blind = 1 := by
  induction store with
  | nil => cases hmem
  | cons x xs ih =>
    rw [List.pairwise_cons] at hpw
    rcases List.mem_cons.mp hmem with hx | hx
    · subst hx
      unfold countBlind
      rw [List.countP_cons]
      have hrest : xs.countP (fun rr => rr.blindIndex == blind) = 0 := by
        refine List.countP_eq_zero.mpr ?_
        intro y hy
        have h2 := hpw.1 y hy
        rw [hrb] at h2
        intro hcon
        have h3 : y.blindIndex = blind := by simpa using hcon
        exact h2 h3.symm
      simp [hrest, hrb]
    · have hxb : x.blindIndex ≠ blind := by
        have h2 := hpw.1 r hx
        rw [hrb] at h2
        exact h2
      unfold countBlind at ih ⊢
      rw [List.countP_cons]
      simp [hxb, ih hx hpw.2]

theorem tokenizeV3_hit (prim : FF1Prim) (aesKey hmacKey : List Nat) (fptGen : Option GenCfg)
    (kv : String) (envFpe : Option FF1Generator) (st : SrvState)
    (tenantID dataType value : String) (r : PiiRecord)
    (hfound : GetByBlindIndexTenant st.store tenantID
      (HMACBlindIndex hmacKey (legacyNormalized dataType value)) = some r) :
    TokenizeV3 prim ⟨aesKey, hmacKey, none, fptGen, kv⟩ envFpe st tenantID dataType value =
      .ok (r.fpt, st) := by
  simp only [TokenizeV3, writeBackCache, hfound]

/-- When the tenant probe misses, the tenant-scoped lookup predicate is false
for a store in which no row carries the blind index at all. -/
theorem getByBlindTenant_none (store : List PiiRecord) (tenantID blind : String)
    (hg : ∀ r ∈ store, r.blindIndex ≠ blind) :
    GetByBlindIndexTenant store tenantID blind = none := by
  refine List.find?_eq_none.mpr ?_
  intro r hr
  simp [tenantMatch, hg r hr]

theorem tokenizeV3_fresh (prim : FF1Prim) (aesKey hmacKey : List Nat) (g : FF1Generator)
    (kv : String) (envFpe : Option FF1Generator) (st : SrvState)
    (tenantID dataType value t : String) (st1 : SrvState)
    (hg : ∀ r ∈ st.store, r.blindIndex ≠
      HMACBlindIndex hmacKey (legacyNormalized dataType value))
    (hno : ∀ r ∈ st.store, r.fpt = t →
      r.blindIndex = HMACBlindIndex hmacKey (legacyNormalized dataType value))
    (h1 : TokenizeV3 prim ⟨aesKey, hmacKey, none, some (.ff1 g), kv⟩ envFpe st
      tenantID dataType value = .ok (t, st1)) :
    st1 = ⟨st.store ++ [⟨.raw aesKey st.nonce (legacyNormalized dataType value),
        HMACBlindIndex hmacKey (legacyNormalized dataType value), t, dataType,
        (if tenantID = "" then none else some tenantID),
        (if g.keyVersion = "" then none else some g.keyVersion)⟩],
      st.cacheSt, st.nonce + 1⟩ := by
  have hmiss := getByBlindTenant_none st.store tenantID _ hg
  have hmissG := getByBlindTenant_none st.store "" _ hg
  simp only [TokenizeV3, writeBackCache, AESGCMEncrypt, base64DecodeEnc,
    FF1Generator.KeyVersion, hmiss, hmissG] at h1
  split at h1
  next e heq => exact absurd h1 (by simp)
  next fpt heq =>
    have hany1 : (st.store.any fun r => r.blindIndex ==
        HMACBlindIndex hmacKey (legacyNormalized dataType value)) = false := by
      rw [List.any_eq_false]
      intro r hr
      simp [hg r hr]
    simp only [InsertTokenTenant, hany1, Bool.false_eq_true, ite_false] at h1
    by_cases hdup : (st.store.any fun r => r.fpt == fpt ||
        r.encryptedValue == EncVal.raw aesKey st.nonce (legacyNormalized dataType value))
    · rw [if_pos hdup] at h1
      try simp only [] at h1
      try simp only [Bool.false_eq_true, ite_false] at h1
      cases hf : GetByFPTTenant st.store tenantID fpt with
      | some ex =>
        rw [hf] at h1
        simp only [Except.ok.injEq, Prod.mk.injEq] at h1
        have hmem := List.mem_of_find?_eq_some hf
        have hbl := hno ex hmem h1.1
        exact absurd hbl (hg ex hmem)
      | none =>
        rw [hf] at h1
        exact absurd h1 (by simp)
    · rw [if_neg hdup] at h1
      try simp only [] at h1
      simp only [Except.ok.injEq, Prod.mk.injEq] at h1
      obtain ⟨hfpt, hst⟩ := h1
      rw [← hst, ← hfpt]

theorem tenantMatch_self (tenantID : String) :
    tenantMatch tenantID (if tenantID = "" then none else some tenantID) = true := by
  by_cases h : tenantID = "" <;> simp [tenantMatch, h]

theorem tokenize_idem_fresh_or_hit (prim : FF1Prim) (aesKey hmacKey : List Nat) (gen : GenCfg)
    (kv : String) (st : SrvState) (dataType value t : String) (st1 : SrvState)
    (hpw : List.Pairwise (fun a b : PiiRecord => a.blindIndex ≠ b.blindIndex) st.store)
    (hno : ∀ r ∈ st.store, r.fpt = t →
      r.blindIndex = HMACBlindIndex hmacKey (legacyNormalized dataType value))
    (h1 : Tokenize prim ⟨aesKey, hmacKey, none, some gen, kv⟩ st dataType value =
      .ok (t, st1)) :
    Tokenize prim ⟨aesKey, hmacKey, none, some gen, kv⟩ st1 dataType value =
      .ok (t, st1) ∧
    countBlind st1.store (HMACBlindIndex hmacKey (legacyNormalized dataType value)) = 1 := by
  cases hb : GetByBlindIndex st.store (HMACBlindIndex hmacKey (legacyNormalized dataType value)) with
  | some r =>
    have h2 := tokenize_hit prim aesKey hmacKey gen kv st dataType value r hb
    have h3 := h2.symm.trans h1
    simp only [Except.ok.injEq, Prod.mk.injEq] at h3
    obtain ⟨hrt, hst⟩ := h3
    constructor
    · rw [← hst, h2, hrt]
    · rw [← hst]
      exact countBlind_eq_one st.store _ r hb hpw
  | none =>
    have hshape := tokenize_fresh prim aesKey hmacKey gen kv st dataType value t st1 hb hno h1
    have hfind : GetByBlindIndex st1.store
        (HMACBlindIndex hmacKey (legacyNormalized dataType value)) =
        some ⟨.b64 aesKey st.nonce (legacyNormalized dataType value),
          HMACBlindIndex hmacKey (legacyNormalized dataType value), t, dataType, none, none⟩ := by
      rw [hshape]
      exact find?_append_last _ _ _ hb (by simp)
    constructor
    · have h2 := tokenize_hit prim aesKey hmacKey gen kv st1 dataType value _ hfind
      exact h2
    · rw [hshape]
      unfold countBlind
      rw [List.countP_append]
      have hz : st.store.countP (fun rr => rr.blindIndex ==
          HMACBlindIndex hmacKey (legacyNormalized dataType value)) = 0 :=
        List.countP_eq_zero.mpr (List.find?_eq_none.mp hb)
      simp [hz]

theorem tokenizeV3_idem_fresh_or_hit (prim : FF1Prim) (aesKey hmacKey : List Nat) (g : FF1Generator)
    (kv : String) (envFpe : Option FF1Generator) (st : SrvState)
    (tenantID dataType value t : String) (st1 : SrvState)
    (hpw : List.Pairwise (fun a b : PiiRecord => a.blindIndex ≠ b.blindIndex) st.store)
    (hno : ∀ r ∈ st.store, r.fpt = t →
      r.blindIndex = HMACBlindIndex hmacKey (legacyNormalized dataType value))
    (hfresh : GetByBlindIndexTenant st.store tenantID
        (HMACBlindIndex hmacKey (legacyNormalized dataType value)) = none →
      ∀ r ∈ st.store, r.blindIndex ≠ HMACBlindIndex hmacKey (legacyNormalized dataType value))
    (h1 : TokenizeV3 prim ⟨aesKey, hmacKey, none, some (.ff1 g), kv⟩ envFpe st
      tenantID dataType value = .ok (t, st1)) :
    TokenizeV3 prim ⟨aesKey, hmacKey, none, some (.ff1 g), kv⟩ envFpe st1
      tenantID dataType value = .ok (t, st1) ∧
    countBlind st1.store (HMACBlindIndex hmacKey (legacyNormalized dataType value)) = 1 := by
  cases hbt : GetByBlindIndexTenant st.store tenantID
      (HMACBlindIndex hmacKey (legacyNormalized dataType value)) with
  | some r =>
    have h2 := tokenizeV3_hit prim aesKey hmacKey (some (.ff1 g)) kv envFpe st
      tenantID dataType value r hbt
    have h3 := h2.symm.trans h1
    simp only [Except.ok.injEq, Prod.mk.injEq] at h3
    obtain ⟨hrt, hst⟩ := h3
    have hmem := List.mem_of_find?_eq_some hbt
    have hpred := List.find?_some hbt
    have hrb : r.blindIndex = HMACBlindIndex hmacKey (legacyNormalized dataType value) := by
      have := (Bool.and_eq_true _ _ |>.mp hpred).2
      simpa using this
    constructor
    · rw [← hst, h2, hrt]
    · rw [← hst]
      exact countBlind_eq_one_mem st.store _ r hmem hrb hpw
  | none =>
    have hg := hfresh hbt
    have hshape := tokenizeV3_fresh prim aesKey hmacKey g kv envFpe st
      tenantID dataType value t st1 hg hno h1
    have hmiss := getByBlindTenant_none st.store tenantID _ hg
    have hfind : GetByBlindIndexTenant st1.store tenantID
        (HMACBlindIndex hmacKey (legacyNormalized dataType value)) =
        some ⟨.raw aesKey st.nonce (legacyNormalized dataType value),
          HMACBlindIndex hmacKey (legacyNormalized dataType value), t, dataType,
          (if tenantID = "" then none else some tenantID),
          (if g.keyVersion = "" then none else some g.keyVersion)⟩ := by
      rw [hshape]
      refine find?_append_last _ _ _ hmiss ?_
      simp [tenantMatch_self]
    constructor
    · exact tokenizeV3_hit prim aesKey hmacKey (some (.ff1 g)) kv envFpe st1
        tenantID dataType value _ hfind
    · rw [hshape]
      unfold countBlind
      rw [List.countP_append]
      have hz : st.store.countP (fun rr => rr.blindIndex ==
          HMACBlindIndex hmacKey (legacyNormalized dataType value)) = 0 := by
        refine List.countP_eq_zero.mpr ?_
        intro y hy
        simp [hg y hy]
      simp [hz]

/-! ### Claim theorems (continued) -/

/-- C3: round-trip — on a cache-less server, a successful first-time
tokenization of a value (no store row under its blind index, no row already
holding the returned token) stores an AES-GCM ciphertext of the normalized
value that decrypts back to it, and `Detokenize` of the returned token
yields exactly `normalize(v)`. -/
theorem claim_C3_roundtrip (prim : FF1Prim) (aesKey hmacKey : List Nat) (gen : GenCfg)
    (kv : String) (st : SrvState) (dataType value t : String) (st1 : SrvState)
    (hb : GetByBlindIndex st.store
      (HMACBlindIndex hmacKey (legacyNormalized dataType value)) = none)
    (hno : ∀ r ∈ st.store, r.fpt = t →
      r.blindIndex = HMACBlindIndex hmacKey (legacyNormalized dataType value))
    (ht : trimSpace t ≠ "")
    (h1 : Tokenize prim ⟨aesKey, hmacKey, none, some gen, kv⟩ st dataType value =
      .ok (t, st1)) :
    (∃ rec, GetByFPT st1.store t = some rec ∧
      AESGCMDecrypt aesKey rec.encryptedValue = .ok (legacyNormalized dataType value)) ∧
    Detokenize ⟨aesKey, hmacKey, none, some gen, kv⟩ st1 t =
      .ok (legacyNormalized dataType value, st1) := by
  have hshape := tokenize_fresh prim aesKey hmacKey gen kv st dataType value t st1 hb hno h1
  have hfptnone : GetByFPT st.store t = none := by
    refine List.find?_eq_none.mpr ?_
    intro r hr hcon
    have hft : r.fpt = t := by simpa using hcon
    have hrb := hno r hr hft
    have := List.find?_eq_none.mp hb r hr
    simp [hrb] at this
  have hfind : GetByFPT st1.store t =
      some ⟨.b64 aesKey st.nonce (legacyNormalized dataType value),
        HMACBlindIndex hmacKey (legacyNormalized dataType value), t, dataType, none, none⟩ := by
    rw [hshape]
    exact find?_append_last _ _ _ hfptnone (by simp)
  refine ⟨⟨_, hfind, by simp [AESGCMDecrypt]⟩, ?_⟩
  simp [Detokenize, if_neg ht, writeBackCache, hfind, AESGCMDecrypt]

/-- C6 (amended): in `TokenizeV3`, a *hard insert error* is resolved by the
three-step read chain — `(tenant, token)`, `(tenant, blind)`, then the
global scope by blind — with failure only when all three miss; but when the
insert reports *nothing inserted* (`ON CONFLICT DO NOTHING`), the code runs
only the two-step chain `(tenant, blind)` then global-blind, never reading
by `(tenant, token)`, and fails when those two miss.  (The claim as stated,
which prescribes the three-step chain for both outcomes, is refuted by
`claim_C6_counterexample`.) -/
theorem claim_C6_resolution_chains (prim : FF1Prim) (aesKey hmacKey : List Nat) (g : FF1Generator)
    (kv : String) (envFpe : Option FF1Generator) (st : SrvState)
    (tenantID dataType value fpt ierr : String)
    (hmiss : GetByBlindIndexTenant st.store tenantID
        (HMACBlindIndex hmacKey (legacyNormalized dataType value)) = none)
    (hgen : ff1GenerateToken prim g dataType (legacyNormalized dataType value)
        (strBytes (v3Tweak tenantID dataType g.keyVersion)) = .ok fpt) :
    (InsertTokenTenant st.store (.raw aesKey st.nonce (legacyNormalized dataType value))
        (HMACBlindIndex hmacKey (legacyNormalized dataType value)) fpt dataType tenantID
        g.keyVersion = .error ierr →
      (TokenizeV3 prim ⟨aesKey, hmacKey, none, some (.ff1 g), kv⟩ envFpe st
          tenantID dataType value).map Prod.fst =
        (match resolveChain3 st.store tenantID fpt
            (HMACBlindIndex hmacKey (legacyNormalized dataType value)) with
         | some t => Except.ok t
         | none => Except.error ("insert failed: " ++ ierr))) ∧
    (InsertTokenTenant st.store (.raw aesKey st.nonce (legacyNormalized dataType value))
        (HMACBlindIndex hmacKey (legacyNormalized dataType value)) fpt dataType tenantID
        g.keyVersion = .ok (none, st.store) →
      (TokenizeV3 prim ⟨aesKey, hmacKey, none, some (.ff1 g), kv⟩ envFpe st
          tenantID dataType value).map Prod.fst =
        (match resolveChain2 st.store tenantID
            (HMACBlindIndex hmacKey (legacyNormalized dataType value)) with
         | some t => Except.ok t
         | none =>
            Except.error "insert conflict: token exists but select returned nothing")) := by
  have hkv : FF1Generator.KeyVersion g = g.keyVersion := rfl
  constructor
  · intro hins
    simp only [TokenizeV3, hkv, AESGCMEncrypt, base64DecodeEnc, writeBackCache,
      hmiss, hgen, hins, resolveChain3]
    cases h1 : GetByFPTTenant st.store tenantID fpt with
    | some r => simp [h1, Except.map]
    | none =>
      cases h3 : GetByBlindIndexTenant st.store ""
          (HMACBlindIndex hmacKey (legacyNormalized dataType value)) with
      | some r => simp [h1, h3, Except.map]
      | none => simp [h1, h3, Except.map]
  · intro hins
    simp only [TokenizeV3, hkv, AESGCMEncrypt, base64DecodeEnc, writeBackCache,
      hmiss, hgen, hins, resolveChain2]
    cases h3 : GetByBlindIndexTenant st.store ""
        (HMACBlindIndex hmacKey (legacyNormalized dataType value)) with
    | some r => simp [h3, Except.map]
    | none => simp [h3, Except.map]

/-- C7: a token whose backing record's ciphertext fails authenticated
decryption yields a decryption error, which is distinct from the
`tokenNotFound` outcome; the not-found outcome occurs exactly when no
record exists for the token in any resolvable scope (tenant row, plus the
global row when fallback is enabled, for V3; the store row for V1 with a
nonempty token and no cache). -/
theorem claim_C7_decrypt_vs_notfound (s : Server) (st : SrvState) (allow : Bool) (tenantID fpt : String)
    (hc : s.cache = none) :
    (∀ r e, GetByFPTTenant st.store tenantID fpt = some r →
       decryptEncryptedValueBytes s r.encryptedValue = .error e →
       DetokenizeV3 s st allow tenantID fpt = .error (.decryptFailed e) ∧
       (DetokErr.decryptFailed e ≠ .tokenNotFound)) ∧
    (DetokenizeV3 s st allow tenantID fpt = .error .tokenNotFound ↔
      (GetByFPTTenant st.store tenantID fpt = none ∧
       (allow = true → GetByFPTTenant st.store "" fpt = none))) ∧
    (trimSpace fpt ≠ "" →
      (Detokenize s st fpt = .error .tokenNotFound ↔ GetByFPT st.store fpt = none)) ∧
    (∀ pt e, trimSpace fpt ≠ "" → GetByFPT st.store fpt = some pt →
       AESGCMDecrypt s.aesKey pt.encryptedValue = .error e →
       Detokenize s st fpt = .error (.decryptFailed e)) := by
  refine ⟨?_, ?_, ?_, ?_⟩
  · intro r e hr hd
    refine ⟨?_, by simp⟩
    simp only [DetokenizeV3, hr, hd]
  · cases hr : GetByFPTTenant st.store tenantID fpt with
    | some r =>
      cases hd : decryptEncryptedValueBytes s r.encryptedValue with
      | ok p => simp [DetokenizeV3, hr, hd]
      | error e => simp [DetokenizeV3, hr, hd]
    | none =>
      cases allow with
      | true =>
        cases hg : GetByFPTTenant st.store "" fpt with
        | some r =>
          cases hd : decryptEncryptedValueBytes s r.encryptedValue with
          | ok p => simp [DetokenizeV3, hr, hg, hd]
          | error e => simp [DetokenizeV3, hr, hg, hd]
        | none => simp [DetokenizeV3, hr, hg]
      | false => simp [DetokenizeV3, hr]
  · intro hne
    cases hr : GetByFPT st.store fpt with
    | some pt =>
      cases hd : AESGCMDecrypt s.aesKey pt.encryptedValue with
      | ok p => simp [Detokenize, hc, if_neg hne, hr, hd]
      | error e => simp [Detokenize, hc, if_neg hne, hr, hd]
    | none => simp [Detokenize, hc, if_neg hne, hr]
  · intro pt e hne hr hd
    simp only [Detokenize, hc, if_neg hne, hr, hd]

/-- C8: a failing cache (every get errors, every set is dropped) produces
exactly the same result and final state as running without a cache at all —
cache errors are never propagated and never change the outcome relative to
a miss, for `Tokenize`, `Detokenize` and `TokenizeV3`. -/
theorem claim_C8_cache_error_equals_miss (prim : FF1Prim) (aesKey hmacKey : List Nat) (fptGen : Option GenCfg)
    (kv : String) (envFpe : Option FF1Generator) (st : SrvState)
    (dataType value fpt tenantID : String) :
    Tokenize prim ⟨aesKey, hmacKey, some .failing, fptGen, kv⟩ st dataType value =
      Tokenize prim ⟨aesKey, hmacKey, none, fptGen, kv⟩ st dataType value ∧
    Detokenize ⟨aesKey, hmacKey, some .failing, fptGen, kv⟩ st fpt =
      Detokenize ⟨aesKey, hmacKey, none, fptGen, kv⟩ st fpt ∧
    TokenizeV3 prim ⟨aesKey, hmacKey, some .failing, fptGen, kv⟩ envFpe st tenantID dataType value =
      TokenizeV3 prim ⟨aesKey, hmacKey, none, fptGen, kv⟩ envFpe st tenantID dataType value :=
  ⟨rfl, rfl, rfl⟩

/-- C9 (amended): for an email value `local@domain`, the legacy generator
and the FF1 generator (main path and fallback) reproduce the `"@"` and the
domain verbatim; the deterministic v2 generator (`fptForEmail`) preserves
only the email's *structure* — it emits `L@D` with `D` of the domain's
length, keeping non-alphanumeric characters in place but substituting the
domain's alphanumeric characters as well (see `claim_C9_counterexample`). -/
theorem claim_C9_domain_preservation :
    (∀ (normalized : String) (tweak : List Nat) (lp domain : String),
       tweak ≠ [] → splitN2 normalized = [lp, domain] →
       ∃ X, currentGenerateToken "EMAIL" normalized tweak = .ok (X ++ "@" ++ domain)) ∧
    (∀ (prim : FF1Prim) (g : FF1Generator) (normalized : String) (tweak : List Nat)
       (lp domain t : String),
       splitN2 (trimSpace normalized) = [lp, domain] →
       ff1GenerateToken prim g "EMAIL" normalized tweak = .ok t →
       ∃ X, t = X ++ "@" ++ domain) ∧
    (∀ (origEmail base : String) (lp domain : List Char) (t : String),
       origEmail.data.splitOn '@' = [lp, domain] →
       fptForEmail origEmail base = .ok t →
       ∃ L D : String, t = L ++ "@" ++ D ∧ D.length = domain.length ∧
         L.length = lp.length ∧
         (∀ j, isAlphaNum (domain.getD j ' ') = false →
           D.data.getD j ' ' = domain.getD j ' ')) := by
  refine ⟨?_, ?_, ?_⟩
  · intro normalized tweak lp domain hk hsplit
    exact currentGenerateToken_email_domain normalized tweak lp domain hk hsplit
  · intro prim g normalized tweak lp domain t hsplit ht
    exact ff1GenerateToken_email_domain prim g normalized tweak lp domain t hsplit ht
  · intro origEmail base lp domain t hsplit ht
    exact fptForEmail_structure origEmail base lp domain t hsplit ht

/-- C9 counterexample: the claim as stated — every path, including the v2
deterministic generator, returns `X@domain` with the domain verbatim — is
false: for the email `"AB@CD.EF"` the v2 generator returns `"5R@7I.5B"`,
whose domain part is not `"CD.EF"`. -/
theorem claim_C9_counterexample :
    ¬ ∃ X, FPTDeterministic (ComputeBlindIndex testHmacKey "AB@CD.EF") "AB@CD.EF" "email"
        = .ok (X ++ "@" ++ "CD.EF") := by
  rintro ⟨X, hX⟩
  have h1 : FPTDeterministic (ComputeBlindIndex testHmacKey "AB@CD.EF") "AB@CD.EF" "email"
      = .ok "5R@7I.5B" := by decide
  rw [h1] at hX
  simp only [Except.ok.injEq] at hX
  have h2 := congrArg String.data hX
  simp only [String.data_append, ← List.append_assoc] at h2
  have h3 := congrArg List.length h2
  simp only [List.length_append] at h3
  have e1 : ("5R@7I.5B" : String).data.length = 8 := by decide
  have e2 : ("@" : String).data.length = 1 := by decide
  have e3 : ("CD.EF" : String).data.length = 5 := by decide
  rw [e1, e2, e3] at h3
  have h4 : ((['5', 'R', '@'] ++ ['7', 'I', '.', '5', 'B'] : List Char)) =
      (X.data ++ ['@']) ++ ['C', 'D', '.', 'E', 'F'] := by simpa using h2
  have hx2 : X.data.length = 2 := by omega
  have h5 := List.append_inj h4 (by simp only [List.length_append, hx2]; decide)
  exact absurd h5.2 (by decide)

/-- C10: for every `piiType` other than the exact lowercase literals
`"pan"`, `"aadhaar"`, `"mobile"`, `"email"` — in particular the uppercased
names the v2 handler always passes — `FPTDeterministic` takes its generic
fallback branch: it returns the 52-character uppercase-alphanumeric base32
digest truncated to the normalized input's length (never a PAN-, Aadhaar-
or mobile-shaped output), or an error when the input is longer than the
digest provides. -/
theorem claim_C10_generic_fallback (blind : List Nat) (normalized piiType : String)
    (h : piiType ∉ (["pan", "aadhaar", "mobile", "email"] : List String)) :
    FPTDeterministic blind normalized piiType =
      (let out := alphanumeric (toUpperStr (base32NoPadEncode
        (hmacSha256 (strBytes piiType) (blind ++ strBytes normalized))));
       if out.length < normalized.length then
         Except.error "insufficient entropy for generic FPT"
       else Except.ok (strTakeN out normalized.length)) ∧
    (∀ t, FPTDeterministic blind normalized piiType = .ok t →
       t.length = normalized.length ∧
       t.data.all (fun c => isUpperChar c || isDigitChar c) = true) ∧
    (normalized.length ≤ 52 → ∃ t, FPTDeterministic blind normalized piiType = .ok t) ∧
    (52 < normalized.length →
       FPTDeterministic blind normalized piiType = .error "insufficient entropy for generic FPT") := by
  simp only [List.mem_cons, List.not_mem_nil, or_false, not_or] at h
  obtain ⟨h1, h2, h3, h4⟩ := h
  have hmain : FPTDeterministic blind normalized piiType =
      (let out := alphanumeric (toUpperStr (base32NoPadEncode
        (hmacSha256 (strBytes piiType) (blind ++ strBytes normalized))));
       if out.length < normalized.length then
         Except.error "insufficient entropy for generic FPT"
       else Except.ok (strTakeN out normalized.length)) := by
    simp only [FPTDeterministic, if_neg h1, if_neg h2, if_neg h3, if_neg h4]
  set digest := hmacSha256 (strBytes piiType) (blind ++ strBytes normalized) with hdig
  have hchars : ∀ c ∈ (base32NoPadEncode digest).data,
      charToUpper c = c ∧ (isUpperChar c || isDigitChar c) = true :=
    fun c hc => base32Alphabet_facts c (base32_chars digest c hc)
  have hupper : toUpperStr (base32NoPadEncode digest) = base32NoPadEncode digest :=
    toUpperStr_id_of_upper _ (fun c hc => (hchars c hc).1)
  have halnum : alphanumeric (base32NoPadEncode digest) = base32NoPadEncode digest :=
    alphanumeric_id _ (fun c hc => (hchars c hc).2)
  have hlen : (base32NoPadEncode digest).length = 52 := by
    rw [base32_length, hmacSha256_length]
  have hdlen : (base32NoPadEncode digest).data.length = 52 := hlen
  have hout : alphanumeric (toUpperStr (base32NoPadEncode digest)) = base32NoPadEncode digest := by
    rw [hupper, halnum]
  rw [hout] at hmain
  refine ⟨by rw [hmain]; simp only [hout], ?_, ?_, ?_⟩
  · intro t ht
    rw [hmain] at ht
    simp only [hlen] at ht
    by_cases hcmp : 52 < normalized.length
    · rw [if_pos hcmp] at ht
      exact absurd ht (by simp)
    · rw [if_neg hcmp] at ht
      have ht2 : t = strTakeN (base32NoPadEncode digest) normalized.length := by
        simpa using ht.symm
      subst ht2
      constructor
      · show (String.mk _).length = _
        rw [mk_length, List.length_take, hdlen]
        omega
      · refine List.all_eq_true.mpr ?_
        intro c hc
        exact (hchars c (List.take_subset _ _ hc)).2
  · intro hle
    rw [hmain]
    simp only [hlen]
    rw [if_neg (by omega)]
    exact ⟨_, rfl⟩
  · intro hgt
    rw [hmain]
    simp only [hlen]
    rw [if_pos hgt]

/-- C5: idempotence — on a cache-less server (legacy and tenant-aware v3
flavors), after a first successful tokenize of a value whose store state
has pairwise-distinct blind indexes and holds the returned token only (if
at all) under the value's own blind index, a second call returns the same
token with the state unchanged, and exactly one store record carries the
value's blind index. -/
theorem claim_C5_idempotent :
    (∀ (prim : FF1Prim) (aesKey hmacKey : List Nat) (gen : GenCfg) (kv : String)
       (st : SrvState) (dataType value t : String) (st1 : SrvState),
       List.Pairwise (fun a b : PiiRecord => a.blindIndex ≠ b.blindIndex) st.store →
       (∀ r ∈ st.store, r.fpt = t →
         r.blindIndex = HMACBlindIndex hmacKey (legacyNormalized dataType value)) →
       Tokenize prim ⟨aesKey, hmacKey, none, some gen, kv⟩ st dataType value =
         .ok (t, st1) →
       Tokenize prim ⟨aesKey, hmacKey, none, some gen, kv⟩ st1 dataType value =
         .ok (t, st1) ∧
       countBlind st1.store (HMACBlindIndex hmacKey (legacyNormalized dataType value)) = 1) ∧
    (∀ (prim : FF1Prim) (aesKey hmacKey : List Nat) (g : FF1Generator) (kv : String)
       (envFpe : Option FF1Generator) (st : SrvState)
       (tenantID dataType value t : String) (st1 : SrvState),
       List.Pairwise (fun a b : PiiRecord => a.blindIndex ≠ b.blindIndex) st.store →
       (∀ r ∈ st.store, r.fpt = t →
         r.blindIndex = HMACBlindIndex hmacKey (legacyNormalized dataType value)) →
       (GetByBlindIndexTenant st.store tenantID
           (HMACBlindIndex hmacKey (legacyNormalized dataType value)) = none →
         ∀ r ∈ st.store, r.blindIndex ≠
           HMACBlindIndex hmacKey (legacyNormalized dataType value)) →
       TokenizeV3 prim ⟨aesKey, hmacKey, none, some (.ff1 g), kv⟩ envFpe st
         tenantID dataType value = .ok (t, st1) →
       TokenizeV3 prim ⟨aesKey, hmacKey, none, some (.ff1 g), kv⟩ envFpe st1
         tenantID dataType value = .ok (t, st1) ∧
       countBlind st1.store (HMACBlindIndex hmacKey (legacyNormalized dataType value)) = 1) :=
  ⟨tokenize_idem_fresh_or_hit, tokenizeV3_idem_fresh_or_hit⟩

/-- C6 counterexample: with a tenant-`"t1"` row holding the very token the
generator produces (under an unrelated blind index) and a tenant-`"t2"` row
occupying the value's blind index, the insert reports nothing inserted and
the claimed three-step chain finds the `(tenant, token)` row — yet the code
returns an allocation-failure error instead of that row's token. -/
theorem claim_C6_counterexample :
    TokenizeV3 idPrim srvFF1 none stC6 "t1" "PAN" "ABCDE1234F" =
      .error "insert conflict: token exists but select returned nothing" ∧
    InsertTokenTenant stC6.store (.raw testAesKey 0 "ABCDE1234F") blindAbcde "ABCDE1234F"
      "PAN" "t1" "v1" = .ok (none, stC6.store) ∧
    resolveChain3 stC6.store "t1" "ABCDE1234F" blindAbcde = some "ABCDE1234F" ∧
    blindAbcde = HMACBlindIndex testHmacKey (legacyNormalized "PAN" "ABCDE1234F") := by
  decide

/-! ### Witnesses -/

/-- Witness for C3 at a concrete PAN run from the empty store. -/
theorem claim_C3_roundtrip_witness :
    (∃ rec, GetByFPT stC5After.store "23JC968121" = some rec ∧
      AESGCMDecrypt testAesKey rec.encryptedValue = .ok (legacyNormalized "PAN" "ABCDE1234F")) ∧
    Detokenize srvCurrent stC5After "23JC968121" =
      .ok (legacyNormalized "PAN" "ABCDE1234F", stC5After) :=
  claim_C3_roundtrip idPrim testAesKey testHmacKey .current "" emptyState "PAN" "ABCDE1234F"
    "23JC968121" stC5After (by decide) (by simp [emptyState]) (by decide) (by decide)

/-- Witness for C5 at the same concrete run. -/
theorem claim_C5_idempotent_witness :
    Tokenize idPrim srvCurrent stC5After "PAN" "ABCDE1234F" = .ok ("23JC968121", stC5After) ∧
    countBlind stC5After.store
      (HMACBlindIndex testHmacKey (legacyNormalized "PAN" "ABCDE1234F")) = 1 :=
  claim_C5_idempotent.1 idPrim testAesKey testHmacKey .current "" emptyState "PAN" "ABCDE1234F"
    "23JC968121" stC5After (by simp [emptyState]) (by simp [emptyState]) (by decide)

/-- Witness for C6 (amended) on the concrete conflicted store. -/
theorem claim_C6_resolution_chains_witness :
    (TokenizeV3 idPrim srvFF1 none stC6 "t1" "PAN" "ABCDE1234F").map Prod.fst =
      (match resolveChain2 stC6.store "t1"
          (HMACBlindIndex testHmacKey (legacyNormalized "PAN" "ABCDE1234F")) with
       | some t => Except.ok t
       | none => Except.error "insert conflict: token exists but select returned nothing") :=
  (claim_C6_resolution_chains idPrim testAesKey testHmacKey ⟨strBytes "K", "v1"⟩ "v1" none stC6
    "t1" "PAN" "ABCDE1234F" "ABCDE1234F" "x" (by decide) (by decide)).2 (by decide)

/-- Witness for C7 on a corrupted record and on a missing token. -/
theorem claim_C7_decrypt_vs_notfound_witness :
    DetokenizeV3 srvFF1 stC7 true "t" "TOKC7" = .error (.decryptFailed
      "decrypt failed: cipher: message authentication failed / cipher: message authentication failed") ∧
    DetokenizeV3 srvFF1 stC7 true "t" "MISSING" = .error .tokenNotFound :=
  ⟨((claim_C7_decrypt_vs_notfound srvFF1 stC7 true "t" "TOKC7" rfl).1 recC7 _
      (by decide) (by decide)).1,
   (claim_C7_decrypt_vs_notfound srvFF1 stC7 true "t" "MISSING" rfl).2.1.mpr (by decide)⟩

/-- Witness for C9 (amended) on concrete emails for all three paths. -/
theorem claim_C9_domain_preservation_witness :
    (∃ X, currentGenerateToken "EMAIL" "ab@cd.ef" (strBytes "bl") = .ok (X ++ "@" ++ "cd.ef")) ∧
    (∃ X, ("45@cd.ef" : String) = X ++ "@" ++ "cd.ef") ∧
    (∃ L D : String, ("AB@CD.EF" : String) = L ++ "@" ++ D ∧
      D.length = ("cd.ef" : String).data.length ∧
      L.length = ("ab" : String).data.length ∧
      (∀ j, isAlphaNum (("cd.ef" : String).data.getD j ' ') = false →
        D.data.getD j ' ' = ("cd.ef" : String).data.getD j ' ')) :=
  ⟨claim_C9_domain_preservation.1 "ab@cd.ef" (strBytes "bl") "ab" "cd.ef"
     (by decide) (by decide),
   claim_C9_domain_preservation.2.1 idPrim ⟨strBytes "K", "v1"⟩ "AB@cd.ef" [] "AB" "cd.ef"
     "45@cd.ef" (by decide) (by decide),
   claim_C9_domain_preservation.2.2 "ab@cd.ef" "ABCDEFGHIJ" ("ab" : String).data
     ("cd.ef" : String).data "AB@CD.EF" (by decide) (by decide)⟩

/-- Witness for C10: `"PAN"` (as passed by the v2 handler) is outside the
lowercase literal set and takes the generic branch. -/
theorem claim_C10_generic_fallback_witness :
    FPTDeterministic (ComputeBlindIndex testHmacKey "ABCDE1234F") "ABCDE1234F" "PAN" =
      .ok "HGXRRWQN4J" ∧
    ("HGXRRWQN4J" : String).length = ("ABCDE1234F" : String).length ∧
    (∃ t, FPTDeterministic (ComputeBlindIndex testHmacKey "ABCDE1234F") "ABCDE1234F" "PAN" =
      .ok t) :=
  ⟨by decide, by decide,
   (claim_C10_generic_fallback (ComputeBlindIndex testHmacKey "ABCDE1234F") "ABCDE1234F" "PAN"
      (by decide)).2.2.1 (by decide)⟩

end PiiTok
